import Mathlib

/-!
Verification development for the `ai-pr-reviewer` repository.

The repository is a set of Node.js scripts that review GitHub pull requests:
per-stack pattern evaluators (`laravel-reviewer.js`, `react-reviewer.js`,
`swift-reviewer.js`), a stack dispatcher (`dispatcher.js`), a comment
dispatcher (`comment-dispatcher.js`) and per-stack interactive comment
handlers.  This file gives a shallow embedding of those scripts: JavaScript
regular-expression literals become values of a small `Pat` datatype with an
exact backtracking matcher, string-processing becomes functions over
`List Char` / `String`, and the effectful orchestration (`reviewPR`,
dispatcher main, comment handlers) becomes pure functions taking the
collaborator behaviour (file listing, content fetch, AI completion) as
explicit `Except`/`Option`-valued inputs.
-/

namespace AIPR

/-- JavaScript `\w` character class: `[A-Za-z0-9_]`. -/
def isWordChar (c : Char) : Bool := c.isAlphanum || c = '_'

/-- JavaScript `\s` character class (restricted to its ASCII members, which
are the only ones relevant to the embedded rule patterns). -/
def isSpaceChar (c : Char) : Bool :=
  c = ' ' || c = '\t' || c = '\n' || c = '\r' || c = '\x0b' || c = '\x0c'

/-- JavaScript `.` (any character except a line terminator). -/
def isDotChar (c : Char) : Bool := c ≠ '\n' && c ≠ '\r'

/-- Regular-expression abstract syntax, covering exactly the constructs used
by the reviewers' regex literals: literals, character classes, greedy
class-star, alternation, sequencing, word boundary `\b` and end anchor `$`. -/
inductive Pat where
  | lit  : List Char → Pat
  | cls  : (Char → Bool) → Pat
  | star : (Char → Bool) → Pat
  | alt  : Pat → Pat → Pat
  | seq  : Pat → Pat → Pat
  | wb   : Pat
  | eos  : Pat

/-- Consume an exact literal from the head of the input. -/
def dropLit : List Char → List Char → Option (List Char)
  | [], cs => some cs
  | _ :: _, [] => none
  | p :: ps, c :: cs => if c = p then dropLit ps cs else none

/-- Previous-character tracking: `none` at the start of the string. -/
def isWordOpt : Option Char → Bool
  | none => false
  | some c => isWordChar c

/-- `\b` holds at a position iff exactly one of the neighbouring characters is
a word character. -/
def atBoundary (prev : Option Char) (cs : List Char) : Bool :=
  isWordOpt prev != (match cs with | [] => false | c :: _ => isWordChar c)

/-- Last character of a consumed literal, falling back to the previous one. -/
def lastOr (l : List Char) (prev : Option Char) : Option Char :=
  match l.getLast? with
  | some c => some c
  | none => prev

/-- Greedy/backtracking matcher for a class-star, in continuation style.
Tries every split point, so it is exact for the patterns embedded here. -/
def starMatch (p : Char → Bool) (k : Option Char → List Char → Bool) :
    Option Char → List Char → Bool
  | prev, [] => k prev []
  | prev, c :: cs => k prev (c :: cs) || (p c && starMatch p k (some c) cs)

/-- Backtracking matcher: `patMatch pat prev cs k` holds iff some prefix of
`cs` matches `pat` (with `prev` the character just before `cs`) and the
continuation `k` accepts the remainder. -/
def patMatch : Pat → Option Char → List Char → (Option Char → List Char → Bool) → Bool
  | .lit l, prev, cs, k =>
    (match dropLit l cs with
     | some rest => k (lastOr l prev) rest
     | none => false)
  | .cls p, _, cs, k =>
    (match cs with
     | c :: rest => p c && k (some c) rest
     | [] => false)
  | .star p, prev, cs, k => starMatch p k prev cs
  | .alt a b, prev, cs, k => patMatch a prev cs k || patMatch b prev cs k
  | .seq a b, prev, cs, k => patMatch a prev cs (fun pr rest => patMatch b pr rest k)
  | .wb, prev, cs, k => atBoundary prev cs && k prev cs
  | .eos, prev, cs, k => cs.isEmpty && k prev cs

/-- Unanchored search from successive start positions (JavaScript
`RegExp.prototype.test` for a pattern without `^`). -/
def searchFrom (p : Pat) : Option Char → List Char → Bool
  | prev, [] => patMatch p prev [] (fun _ _ => true)
  | prev, c :: rest =>
    patMatch p prev (c :: rest) (fun _ _ => true) || searchFrom p (some c) rest

/-- `re.test(s)` for an unanchored regex. -/
def reTest (p : Pat) (s : List Char) : Bool := searchFrom p none s

/-- `re.test(s)` for a regex anchored with a leading `^`. -/
def reTestA (p : Pat) (s : List Char) : Bool := patMatch p none s (fun _ _ => true)

/-- Sequence a list of sub-patterns. -/
def pseq (l : List Pat) : Pat := l.foldr .seq (.lit [])

/-- Literal pattern from a string. -/
def plit (s : String) : Pat := .lit s.data

/-- `x?` for a sub-pattern (used for optional groups). -/
def popt (p : Pat) : Pat := .alt p (.lit [])

/-- `x+` for a character class. -/
def pplus (p : Char → Bool) : Pat := .seq (.cls p) (.star p)

/-- Case-insensitive literal (for regexes with the `i` flag). -/
def pCI (s : String) : Pat :=
  pseq (s.data.map (fun c => .cls (fun x => x.toLower = c.toLower)))

/-- n-ary alternation. -/
def palts (l : List Pat) : Pat :=
  match l with
  | [] => .lit []
  | [p] => p
  | p :: q :: rest => .alt p (palts (q :: rest))

/-- JavaScript `String.prototype.includes` on char lists. -/
def containsSub (sub : List Char) : List Char → Bool
  | [] => sub.isEmpty
  | c :: rest =>
    match dropLit sub (c :: rest) with
    | some _ => true
    | none => containsSub sub rest

/-- `haystack.includes(needle)` on strings. -/
def jsIncludes (haystack needle : String) : Bool := containsSub needle.data haystack.data

/-- JavaScript `String.prototype.trim` (over the ASCII whitespace relevant
here). -/
def jsTrim (cs : List Char) : List Char :=
  ((cs.dropWhile isSpaceChar).reverse.dropWhile isSpaceChar).reverse

/-- `str.split(sep)` for a one-character separator. -/
def splitOnCh (sep : Char) (cs : List Char) : List (List Char) :=
  match cs with
  | [] => [[]]
  | c :: rest =>
    let ls := splitOnCh sep rest
    if c = sep then [] :: ls
    else
      match ls with
      | [] => [[c]]
      | l :: ls' => (c :: l) :: ls'

/-- `content.split('\n')`. -/
def splitLines (cs : List Char) : List (List Char) := splitOnCh '\n' cs

/-- `lines.join('\n')`. -/
def joinLines (ls : List (List Char)) : List Char :=
  match ls with
  | [] => []
  | [l] => l
  | l :: l' :: rest => l ++ '\n' :: joinLines (l' :: rest)

/-- `array.slice(a, b)` (for in-range non-negative indices, which is how the
sources use it). -/
def jsSlice (l : List (List Char)) (a b : Nat) : List (List Char) :=
  (l.drop a).take (b - a)

/-- `str.startsWith(p)` on char lists. -/
def startsWithLit (p cs : List Char) : Bool :=
  match dropLit p cs with
  | some _ => true
  | none => false

/-- `['"]` character class. -/
def isQuote (c : Char) : Bool := c = '\'' || c = '"'

/-! ## Laravel reviewer (`scripts/laravel-reviewer.js`): pattern evaluator -/

/-- A critical finding of the Laravel reviewer: `{line, type, severity, message}`. -/
structure LIssue where
  line : Nat
  type : String
  severity : String
  message : String
deriving DecidableEq

/-- A suggestion of the Laravel reviewer: `{line, category, message}`. -/
structure LSugg where
  line : Nat
  category : String
  message : String
deriving DecidableEq

/-- Laravel comment/blank-line skip:
`!trimmed || trimmed.startsWith('//') || trimmed.startsWith('*') || trimmed.startsWith('/*')`. -/
def lSkipLine (trimmed : List Char) : Bool :=
  trimmed.isEmpty || startsWithLit "//".data trimmed ||
    startsWithLit "*".data trimmed || startsWithLit "/*".data trimmed

/-- `/DB::select\s*\(\s*['"]SELECT/` -/
def patLS1a : Pat :=
  pseq [plit "DB::select", .star isSpaceChar, plit "(", .star isSpaceChar,
    .cls isQuote, plit "SELECT"]

/-- `/DB::select\s*\(\s*['"]SELECT[^'"]*\?/` -/
def patLS1b : Pat :=
  pseq [plit "DB::select", .star isSpaceChar, plit "(", .star isSpaceChar,
    .cls isQuote, plit "SELECT", .star (fun c => !isQuote c), plit "?"]

/-- `/function\s+\w+\s*\([^)]*\$id\s*[,)]/` -/
def patLS2a : Pat :=
  pseq [plit "function", pplus isSpaceChar, pplus isWordChar, .star isSpaceChar,
    plit "(", .star (fun c => c ≠ ')'), plit "$id", .star isSpaceChar,
    .cls (fun c => c = ',' || c = ')')]

/-- `/Controller/` -/
def patController : Pat := plit "Controller"

/-- `/::find\s*\(\s*\$id\s*\)/` -/
def patLS2c : Pat :=
  pseq [plit "::find", .star isSpaceChar, plit "(", .star isSpaceChar,
    plit "$id", .star isSpaceChar, plit ")"]

/-- `/\$request->validate\s*\(\s*\[/` -/
def patLS3a : Pat :=
  pseq [plit "$request->validate", .star isSpaceChar, plit "(", .star isSpaceChar, plit "["]

/-- `checkBestPractices(content, filename)` of the Laravel reviewer. -/
def laravelCheckBestPractices (content : List Char) (_filename : String) : List LSugg :=
  let lines := splitLines content
  (lines.enum.map (fun p =>
    let idx := p.1
    let line := p.2
    let lineNum := idx + 1
    let trimmed := jsTrim line
    if lSkipLine trimmed then [] else
    (if reTest patLS1a line && !(reTest patLS1b line) then
      [⟨lineNum, "📊 Database",
        "Consider using Query Builder or Eloquent instead of raw SQL for better maintainability"⟩]
     else []) ++
    (if reTest patLS2a line && reTest patController content then
      (let nextLines := joinLines (jsSlice lines idx (idx + 5))
       if reTest patLS2c nextLines then
         [⟨lineNum, "🎯 Eloquent",
           "Use route model binding instead of manual find($id) for cleaner code"⟩]
       else [])
     else []) ++
    (if reTest patLS3a line && reTest patController content then
      [⟨lineNum, "✅ Validation",
        "Consider using Form Request classes for complex validations to keep controllers thin"⟩]
     else []))).flatten

/-- `/\b(vendor|node_modules|bootstrap\/cache|storage)\b/` -/
def patLEx1 : Pat :=
  pseq [.wb, palts [plit "vendor", plit "node_modules", plit "bootstrap/cache", plit "storage"], .wb]

/-- `/\.blade\.php$/` -/
def patLEx2 : Pat := pseq [plit ".blade.php", .eos]

/-- `/\/(tests?|Tests)\//i` -/
def patLEx3 : Pat :=
  pseq [plit "/", .alt (pseq [pCI "test", popt (pCI "s")]) (pCI "Tests"), plit "/"]

/-- `/_test\.php$|Test\.php$/` -/
def patLEx4 : Pat :=
  .alt (pseq [plit "_test.php", .eos]) (pseq [plit "Test.php", .eos])

/-- The Laravel exclusion predicate guarding `analyzeCode`. -/
def laravelExcluded (filename : String) : Bool :=
  reTest patLEx1 filename.data || reTest patLEx2 filename.data ||
    reTest patLEx3 filename.data || reTest patLEx4 filename.data

/-- `/\b(dd|dump)\s*\(/` -/
def patLC1 : Pat :=
  pseq [.wb, .alt (plit "dd") (plit "dump"), .star isSpaceChar, plit "("]

/-- `/DB::raw\([^)]*['"][^'"]*\$/` -/
def patLC2a : Pat :=
  pseq [plit "DB::raw(", .star (fun c => c ≠ ')'), .cls isQuote,
    .star (fun c => !isQuote c), plit "$"]

/-- The regex `->whereRaw\([^)]*['"][^'"]*\$` (second alternative of rule 2). -/
def patLC2b : Pat :=
  pseq [plit "->whereRaw(", .star (fun c => c ≠ ')'), .cls isQuote,
    .star (fun c => !isQuote c), plit "$"]

/-- `/['"].*\..*\$/` -/
def patLC2c : Pat :=
  pseq [.cls isQuote, .star isDotChar, plit ".", .star isDotChar, plit "$"]

/-- `/\$.*\..*['"]/` -/
def patLC2d : Pat :=
  pseq [plit "$", .star isDotChar, plit ".", .star isDotChar, .cls isQuote]

/-- `/::create\s*\(\s*\$request\s*->\s*all\s*\(\s*\)/` -/
def patLC3 : Pat :=
  pseq [plit "::create", .star isSpaceChar, plit "(", .star isSpaceChar,
    plit "$request", .star isSpaceChar, plit "->", .star isSpaceChar, plit "all",
    .star isSpaceChar, plit "(", .star isSpaceChar, plit ")"]

/-- Output of a per-file evaluation: `{ critical, suggestions }`. -/
structure LResult where
  critical : List LIssue
  suggestions : List LSugg
deriving DecidableEq

/-- `analyzeCode(content, filename)` of the Laravel reviewer. -/
def laravelAnalyzeCode (content : List Char) (filename : String) : LResult :=
  if laravelExcluded filename then ⟨[], []⟩
  else
    let lines := splitLines content
    let critical := (lines.enum.map (fun p =>
      let line := p.2
      let lineNum := p.1 + 1
      let trimmed := jsTrim line
      if lSkipLine trimmed then [] else
      (if reTest patLC1 line then
        [⟨lineNum, "🔍 Debug Code", "critical",
          "Debug function dd() or dump() must be removed before merge"⟩]
       else []) ++
      (if (reTest patLC2a line || reTest patLC2b line) &&
          (reTest patLC2c line || reTest patLC2d line) then
        [⟨lineNum, "🔒 Security", "critical",
          "SQL injection risk: variable concatenated in raw query. Use parameter binding with ?"⟩]
       else []) ++
      (if reTest patLC3 line then
        [⟨lineNum, "🔒 Security", "critical",
          "Mass assignment vulnerability: $request->all() allows any field. Use validated() or only()"⟩]
       else []))).flatten
    ⟨critical, laravelCheckBestPractices content filename⟩

/-- An element of the `listFiles` collaborator's reply
(`{path, status, additions, deletions, patch}`). -/
structure PRFile where
  filename : String
  status : String
  patch : Option String
  additions : Nat := 0
  deletions : Nat := 0
deriving DecidableEq

/-- `/\.php$/` -/
def patPhpExt : Pat := pseq [plit ".php", .eos]

/-- The changed-file filter in the Laravel reviewer's `getPRDiff`. -/
def laravelFilterFiles (files : List PRFile) : List PRFile :=
  files.filter (fun f =>
    reTest patPhpExt f.filename.data && f.status != "removed" &&
      !(jsIncludes f.filename "vendor/") && !(jsIncludes f.filename "node_modules/"))

/-! ## React reviewer (`scripts/react-reviewer.js`): pattern evaluator -/

/-- Suggestion priorities of the React rule table (`'high' | 'medium' | 'low'`). -/
inductive RPriority where
  | high | medium | low
deriving DecidableEq

/-- `priorityOrder = { high: 0, medium: 1, low: 2 }`. -/
def priorityOrder : RPriority → Nat
  | .high => 0
  | .medium => 1
  | .low => 2

/-- A critical finding of the React reviewer. -/
structure RIssue where
  line : Nat
  type : String
  severity : String
  message : String
deriving DecidableEq

/-- A suggestion of the React reviewer: `{line, category, message, priority}`. -/
structure RSugg where
  line : Nat
  category : String
  message : String
  priority : RPriority
deriving DecidableEq

/-- React comment/blank-line skip: the anchored alternation of
`//`, `/*` and `*`. -/
def patRSkip : Pat := palts [plit "//", plit "/*", plit "*"]

/-- `!trimmed || the anchored skip regex matches`. -/
def rSkipLine (trimmed : List Char) : Bool := trimmed.isEmpty || reTestA patRSkip trimmed

/-- `/\.tsx?$/` (the unused `isTypeScript` computation). -/
def patTsxExt : Pat := pseq [plit ".ts", popt (plit "x"), .eos]

/-- `/class\s+\w+\s+extends\s+(?:React\.)?Component/` -/
def patRS1 : Pat :=
  pseq [plit "class", pplus isSpaceChar, pplus isWordChar, pplus isSpaceChar,
    plit "extends", pplus isSpaceChar, popt (plit "React."), plit "Component"]

/-- `/useEffect\s*\(\s*\(\s*\)\s*=>/` -/
def patRS2a : Pat :=
  pseq [plit "useEffect", .star isSpaceChar, plit "(", .star isSpaceChar,
    plit "(", .star isSpaceChar, plit ")", .star isSpaceChar, plit "=>"]

/-- The regex `\}\s*,\s*\[` tested on the 15-line effect window. -/
def patRS2b : Pat :=
  pseq [plit "\x7d", .star isSpaceChar, plit ",", .star isSpaceChar, plit "["]

/-- The inline-handler regex of suggestion rule 3. -/
def patRS3 : Pat :=
  pseq [palts [plit "onClick", plit "onChange", plit "onSubmit",
      pseq [plit "on", .cls Char.isUpper, .star isWordChar]],
    .star isSpaceChar, plit "=", .star isSpaceChar, plit "\x7b",
    .alt (plit "()") (pseq [.star isDotChar, plit "=>"])]

/-- `/\.map\s*\(/` -/
def patRS4a : Pat := pseq [plit ".map", .star isSpaceChar, plit "("]

/-- `/<[A-Z]/` -/
def patRS4b : Pat := pseq [plit "<", .cls Char.isUpper]

/-- `/key\s*=/` -/
def patRS4c : Pat := pseq [plit "key", .star isSpaceChar, plit "="]

/-- The regex `key\s*=\s*\{.*index\}` of suggestion rule 5. -/
def patRS5 : Pat :=
  pseq [plit "key", .star isSpaceChar, plit "=", .star isSpaceChar, plit "\x7b",
    .star isDotChar, plit "index\x7d"]

/-- `/console\.(log|debug|info)\s*\(/` -/
def patRS6 : Pat :=
  pseq [plit "console.", palts [plit "log", plit "debug", plit "info"],
    .star isSpaceChar, plit "("]

/-- `/useEffect/` -/
def patRS7a : Pat := plit "useEffect"

/-- `/(fetch|axios|setTimeout|setInterval|subscribe)\s*\(/` -/
def patRS7b : Pat :=
  pseq [palts [plit "fetch", plit "axios", plit "setTimeout", plit "setInterval",
    plit "subscribe"], .star isSpaceChar, plit "("]

/-- `/return\s*\(\s*\)\s*=>/` -/
def patRS7c : Pat :=
  pseq [plit "return", .star isSpaceChar, plit "(", .star isSpaceChar, plit ")",
    .star isSpaceChar, plit "=>"]

/-- `/return\s+function/` -/
def patRS7d : Pat := pseq [plit "return", pplus isSpaceChar, plit "function"]

/-- `/\w+\s*&&\s*\w+\.\w+/` -/
def patRS8 : Pat :=
  pseq [pplus isWordChar, .star isSpaceChar, plit "&&", .star isSpaceChar,
    pplus isWordChar, plit ".", pplus isWordChar]

/-- `/fetch\s*\(/` -/
def patRS9a : Pat := pseq [plit "fetch", .star isSpaceChar, plit "("]

/-- `/axios\.\w+\s*\(/` -/
def patRS9b : Pat := pseq [plit "axios.", pplus isWordChar, .star isSpaceChar, plit "("]

/-- `/catch|try/` -/
def patRS9c : Pat := .alt (plit "catch") (plit "try")

/-- The chained-array-operations regex of suggestion rule 10. -/
def patRS10 : Pat :=
  pseq [palts [plit ".filter", plit ".map", plit ".reduce", plit ".sort"],
    .star isSpaceChar, plit "(", .star isDotChar, plit ")", .star isSpaceChar,
    plit ".", .star isSpaceChar, palts [plit "filter", plit "map", plit "reduce", plit "sort"]]

/-- The route-import regex of suggestion rule 11. -/
def patRS11a : Pat :=
  pseq [plit "import", pplus isSpaceChar, pplus isWordChar, pplus isSpaceChar,
    plit "from", pplus isSpaceChar, .cls isQuote, .star isDotChar, plit "/",
    palts [plit "pages", plit "routes", plit "views"], plit "/"]

/-- `/React\.lazy|lazy\(/` -/
def patRS11b : Pat := .alt (plit "React.lazy") (plit "lazy(")

/-- `/<img\s/` -/
def patRS12a : Pat := pseq [plit "<img", .cls isSpaceChar]

/-- `/alt\s*=/` -/
def patRS12b : Pat := pseq [plit "alt", .star isSpaceChar, plit "="]

/-- The anchored guard regex `^\s*let\s+\w+\s*=` of suggestion rule 13. -/
def patLetGuard : Pat :=
  pseq [.star isSpaceChar, plit "let", pplus isSpaceChar, pplus isWordChar,
    .star isSpaceChar, plit "="]

/-- `line.match(/let\s+(\w+)/)` and the `[1]` capture: returns the first
`\w+` group following a `let` + whitespace occurrence, scanning start
positions left to right, or `none` when the regex does not match
(in which case the JavaScript `[1]` dereference would throw). -/
def letCapture : List Char → Option (List Char)
  | [] => none
  | c :: cs =>
    if c = 'l' then
      match cs with
      | 'e' :: 't' :: rest =>
        (match rest with
         | d :: _ =>
           if isSpaceChar d then
             (let name := (rest.dropWhile isSpaceChar).takeWhile isWordChar
              if name.isEmpty then letCapture cs else some name)
           else letCapture cs
         | [] => none)
      | _ => letCapture cs
    else letCapture cs

/-- `` new RegExp(`\b${varName}\s*=`) `` -/
def patReassign (varName : List Char) : Pat :=
  pseq [.wb, .lit varName, .star isSpaceChar, plit "="]

/-- `/<div\s+(?:onClick|role=["']button)/` -/
def patRS14 : Pat :=
  pseq [plit "<div", pplus isSpaceChar,
    .alt (plit "onClick") (pseq [plit "role=", .cls isQuote, plit "button"])]

/-- `/<form/` -/
def patRS15a : Pat := plit "<form"

/-- `/onSubmit/` -/
def patRS15b : Pat := plit "onSubmit"

/-- One pass of the React `checkBestPractices` line callback.  Everything is a
pure text test except rule 13, whose capture dereference
`line.match(/let\s+(\w+)/)[1]` is modelled in `Except`: the `.error` case is
the JavaScript `TypeError` that would be thrown if the match were `null`. -/
def reactCheckLine (lines : List (List Char)) (idx : Nat) (line : List Char) :
    Except String (List RSugg) :=
  let lineNum := idx + 1
  let trimmed := jsTrim line
  if rSkipLine trimmed then .ok [] else
  let s1 := if reTest patRS1 line then
    [⟨lineNum, "⚛️ Modern React",
      "Consider using functional components with hooks instead of class components (React 16.8+)", .high⟩] else []
  let s2 := if reTest patRS2a line then
    (let effectContent := joinLines (jsSlice lines idx (idx + 15))
     if !(reTest patRS2b effectContent) then
       [⟨lineNum, "🪝 Hooks",
         "useEffect without dependency array runs on every render. Add [] for mount-only or specify dependencies", .high⟩]
     else []) else []
  let s3 := if reTest patRS3 line then
    [⟨lineNum, "⚡ Performance",
      "Inline function creates new reference on each render. Use useCallback or extract to stable reference", .medium⟩] else []
  let s4 := if reTest patRS4a line then
    (let mapContent := joinLines (jsSlice lines idx (idx + 5))
     if reTest patRS4b mapContent && !(reTest patRS4c mapContent) then
       [⟨lineNum, "⚛️ React",
         "Missing key prop in list. Add unique key to help React identify items", .high⟩]
     else []) else []
  let s5 := if reTest patRS5 line then
    [⟨lineNum, "⚛️ React",
      "Avoid using array index as key. Use unique ID if items can be reordered or filtered", .medium⟩] else []
  let s6 := if reTest patRS6 line then
    [⟨lineNum, "🧹 Code Quality",
      "Remove console.log before production. Use proper logging library or remove debug statements", .medium⟩] else []
  let s7 := if reTest patRS7a line then
    (let effectContent := joinLines (jsSlice lines idx (idx + 20))
     if reTest patRS7b effectContent &&
        (!(reTest patRS7c effectContent) && !(reTest patRS7d effectContent)) then
       [⟨lineNum, "🐛 Memory Leaks",
         "useEffect with async operations should return cleanup function to prevent memory leaks", .high⟩]
     else []) else []
  let s8 := if reTest patRS8 line && !(startsWithLit "//".data trimmed) then
    [⟨lineNum, "🎯 Modern JS",
      "Use optional chaining (?.) instead of && for safer property access", .low⟩] else []
  let s9 := if reTest patRS9a line || reTest patRS9b line then
    (let fetchContext := joinLines (jsSlice lines idx (idx + 10))
     if !(reTest patRS9c fetchContext) then
       [⟨lineNum, "🐛 Error Handling",
         "API call without error handling. Add try-catch or .catch() to handle failures", .high⟩]
     else []) else []
  let s10 := if reTest patRS10 line then
    [⟨lineNum, "⚡ Performance",
      "Chained array operations in render. Consider using useMemo to cache computed values", .medium⟩] else []
  let s11 := if reTest patRS11a line then
    (if !(reTest patRS11b line) then
       [⟨lineNum, "⚡ Performance",
         "Consider lazy loading route components with React.lazy() to reduce initial bundle size", .medium⟩]
     else []) else []
  let s12 := if reTest patRS12a line && !(reTest patRS12b line) then
    [⟨lineNum, "♿ Accessibility",
      "Images must have alt text for accessibility. Add descriptive alt attribute", .high⟩] else []
  let r13 : Except String (List RSugg) :=
    if reTestA patLetGuard line then
      match letCapture line with
      | none => .error "TypeError: cannot read property 1 of null"
      | some varName =>
        let scopeContent := joinLines (jsSlice lines idx (idx + 30))
        let scopeAfter := scopeContent.drop line.length
        .ok (if !(reTest (patReassign varName) scopeAfter) then
          [⟨lineNum, "🎯 Modern JS",
            "Variable \x27" ++ String.mk varName ++
              "\x27 is never reassigned. Use \x27const\x27 instead of \x27let\x27", .low⟩]
        else [])
    else .ok []
  match r13 with
  | .error e => .error e
  | .ok s13 =>
    let s14 := if reTest patRS14 line then
      [⟨lineNum, "♿ Accessibility",
        "Use semantic HTML <button> instead of <div> with onClick for better accessibility", .medium⟩] else []
    let s15 := if reTest patRS15a line && !(reTest patRS15b line) then
      (let formContent := joinLines (jsSlice lines idx (idx + 5))
       if !(reTest patRS15b formContent) then
         [⟨lineNum, "🐛 Forms",
           "Form without onSubmit handler. Add handler and preventDefault() to control submission", .medium⟩]
       else []) else []
    .ok (s1 ++ s2 ++ s3 ++ s4 ++ s5 ++ s6 ++ s7 ++ s8 ++ s9 ++ s10 ++ s11 ++ s12 ++
      s13 ++ s14 ++ s15)

/-- `checkBestPractices(content, filename)` of the React reviewer, with the
possible rule-13 `TypeError` made explicit in `Except`. -/
def reactCheckBestPractices (content : List Char) (_filename : String) :
    Except String (List RSugg) :=
  let lines := splitLines content
  lines.enum.foldl (fun acc p =>
    match acc with
    | .error e => .error e
    | .ok l =>
      match reactCheckLine lines p.1 p.2 with
      | .error e => .error e
      | .ok l' => .ok (l ++ l')) (.ok [])

/-- `/node_modules|dist|build|coverage|\.min\.js/` -/
def patREx1 : Pat :=
  palts [plit "node_modules", plit "dist", plit "build", plit "coverage", plit ".min.js"]

/-- `/\.(test|spec)\.(jsx?|tsx?)$/` -/
def patREx2 : Pat :=
  pseq [plit ".", .alt (plit "test") (plit "spec"), plit ".",
    .alt (pseq [plit "js", popt (plit "x")]) (pseq [plit "ts", popt (plit "x")]), .eos]

/-- The React exclusion predicate guarding `analyzeCode`. -/
def reactExcluded (filename : String) : Bool :=
  reTest patREx1 filename.data || reTest patREx2 filename.data

/-- `/dangerouslySetInnerHTML/` -/
def patRC1 : Pat := plit "dangerouslySetInnerHTML"

/-- `/document\.(getElementById|querySelector|getElementsBy)/` -/
def patRC2 : Pat :=
  pseq [plit "document.",
    palts [plit "getElementById", plit "querySelector", plit "getElementsBy"]]

/-- `/useEffect\s*\(/` -/
def patRC3a : Pat := pseq [plit "useEffect", .star isSpaceChar, plit "("]

/-- `/set[A-Z]\w*\s*\(/` -/
def patRC3b : Pat :=
  pseq [plit "set", .cls Char.isUpper, .star isWordChar, .star isSpaceChar, plit "("]

/-- `/\]\s*\)/` -/
def patRC3c : Pat := pseq [plit "]", .star isSpaceChar, plit ")"]

/-- `/setTimeout|setInterval/` -/
def patRC4a : Pat := .alt (plit "setTimeout") (plit "setInterval")

/-- `/clearTimeout|clearInterval/` -/
def patRC4c : Pat := .alt (plit "clearTimeout") (plit "clearInterval")

/-- `/useEffect\s*\(\s*async/` -/
def patRC5 : Pat :=
  pseq [plit "useEffect", .star isSpaceChar, plit "(", .star isSpaceChar, plit "async"]

/-- `/props\.\w+\s*=/` -/
def patRC6 : Pat := pseq [plit "props.", pplus isWordChar, .star isSpaceChar, plit "="]

/-- `/\beval\s*\(/` -/
def patRC7 : Pat := pseq [.wb, plit "eval", .star isSpaceChar, plit "("]

/-- The bind-in-render regex of critical rule 8. -/
def patRC8 : Pat :=
  pseq [.alt (plit "onClick") (plit "onChange"), .star isSpaceChar, plit "=",
    .star isSpaceChar, plit "\x7b", .star (fun c => c ≠ '\x7d'), plit ".bind(this"]

/-- The hook-call regex of critical rule 9. -/
def patRC9a : Pat :=
  pseq [.wb, palts [plit "useState", plit "useEffect", plit "useCallback",
    plit "useMemo", plit "useRef", plit "useContext"], .star isSpaceChar, plit "("]

/-- The conditional-context regex `\bif\s*\(|\?\s*\(` of critical rule 9. -/
def patRC9b : Pat :=
  .alt (pseq [.wb, plit "if", .star isSpaceChar, plit "("])
    (pseq [plit "?", .star isSpaceChar, plit "("])

/-- `/\bstate\.\w+\s*=/` -/
def patRC10a : Pat :=
  pseq [.wb, plit "state.", pplus isWordChar, .star isSpaceChar, plit "="]

/-- `/this\.state\.\w+\s*=/` -/
def patRC10b : Pat :=
  pseq [plit "this.state.", pplus isWordChar, .star isSpaceChar, plit "="]

/-- One pass of the React critical-rules line callback. -/
def reactCriticalLine (lines : List (List Char)) (idx : Nat) (line : List Char) :
    List RIssue :=
  let lineNum := idx + 1
  let trimmed := jsTrim line
  if rSkipLine trimmed then [] else
  (if reTest patRC1 line then
    [⟨lineNum, "🔒 Security", "critical",
      "XSS risk: dangerouslySetInnerHTML can inject malicious scripts. Sanitize HTML with DOMPurify"⟩] else []) ++
  (if reTest patRC2 line then
    [⟨lineNum, "⚛️ React", "critical",
      "Avoid direct DOM manipulation in React. Use refs (useRef) or state instead"⟩] else []) ++
  (if reTest patRC3a line then
    (let effectContent := joinLines (jsSlice lines idx (idx + 15))
     if reTest patRC3b effectContent && !(reTest patRC3c effectContent) then
       [⟨lineNum, "🐛 Infinite Loop", "critical",
         "Potential infinite loop: useEffect updates state without dependency array"⟩]
     else []) else []) ++
  (if reTest patRC4a line then
    (let context := joinLines (jsSlice lines (idx - 10) (idx + 10))
     if reTest patRS7a context && !(reTest patRC4c context) then
       [⟨lineNum, "💧 Memory Leak", "critical",
         "Timer without cleanup. Return cleanup function: () => clearTimeout(id)"⟩]
     else []) else []) ++
  (if reTest patRC5 line then
    [⟨lineNum, "🐛 Hook Error", "critical",
      "useEffect cannot be async directly. Create async function inside and call it"⟩] else []) ++
  (if reTest patRC6 line then
    [⟨lineNum, "⚛️ React", "critical",
      "Props are read-only. Never mutate props directly"⟩] else []) ++
  (if reTest patRC7 line then
    [⟨lineNum, "🔒 Security", "critical",
      "eval() is dangerous and can execute malicious code. Find alternative approach"⟩] else []) ++
  (if reTest patRC8 line then
    [⟨lineNum, "⚡ Performance", "critical",
      ".bind() in render creates new function each time. Move to constructor or use arrow functions"⟩] else []) ++
  (if reTest patRC9a line then
    (let prevLines := joinLines (jsSlice lines (idx - 5) idx)
     if reTest patRC9b prevLines then
       [⟨lineNum, "🪝 Hooks", "critical",
         "Hooks cannot be called conditionally. Call hooks at top level of component"⟩]
     else []) else []) ++
  (if reTest patRC10a line || reTest patRC10b line then
    [⟨lineNum, "⚛️ React", "critical",
      "Never mutate state directly. Use setState or state setter function"⟩] else [])

/-- Output of the React per-file evaluation. -/
structure RResult where
  critical : List RIssue
  suggestions : List RSugg
deriving DecidableEq

/-- `analyzeCode(content, filename)` of the React reviewer (in `Except`
because of the rule-13 capture dereference in `checkBestPractices`). -/
def reactAnalyzeCode (content : List Char) (filename : String) :
    Except String RResult :=
  if reactExcluded filename then .ok ⟨[], []⟩
  else
    let lines := splitLines content
    let critical := (lines.enum.map (fun p => reactCriticalLine lines p.1 p.2)).flatten
    match reactCheckBestPractices content filename with
    | .error e => .error e
    | .ok suggestions => .ok ⟨critical, suggestions⟩

/-- `/\.(jsx?|tsx?)$/` -/
def patJsExt : Pat :=
  pseq [plit ".",
    .alt (pseq [plit "js", popt (plit "x")]) (pseq [plit "ts", popt (plit "x")]), .eos]

/-- The changed-file filter in the React reviewer's `getPRDiff`. -/
def reactFilterFiles (files : List PRFile) : List PRFile :=
  files.filter (fun f =>
    reTest patJsExt f.filename.data && f.status != "removed" &&
      !(jsIncludes f.filename "node_modules/") && !(jsIncludes f.filename "dist/") &&
      !(jsIncludes f.filename "build/"))

/-! ## Swift reviewer (`scripts/swift-reviewer.js`): pattern evaluator -/

/-- A critical finding of the Swift reviewer: `{line, type, message}`. -/
structure SIssue where
  line : Nat
  type : String
  message : String
deriving DecidableEq

/-- A suggestion of the Swift reviewer: `{line, category, message}`. -/
structure SSugg where
  line : Nat
  category : String
  message : String
deriving DecidableEq

/-- `/\b(Pods|Carthage|\.build|DerivedData|fastlane)\b/` -/
def patSEx1 : Pat :=
  pseq [.wb, palts [plit "Pods", plit "Carthage", plit ".build",
    plit "DerivedData", plit "fastlane"], .wb]

/-- `/\/(Tests|UITests)\//` -/
def patSEx2 : Pat :=
  pseq [plit "/", .alt (plit "Tests") (plit "UITests"), plit "/"]

/-- The Swift exclusion predicate guarding `analyzeCode`. -/
def swiftExcluded (filename : String) : Bool :=
  reTest patSEx1 filename.data || reTest patSEx2 filename.data

/-- `/\btry!\b/` -/
def patSC1 : Pat := pseq [.wb, plit "try!", .wb]

/-- `/\bas!\b/` -/
def patSC2 : Pat := pseq [.wb, plit "as!", .wb]

/-- `/\w!\b/` -/
def patSC3a : Pat := pseq [.cls isWordChar, plit "!", .wb]

/-- `/!=/` -/
def patSC3b : Pat := plit "!="

/-- `/^!/` (anchored) -/
def patSC3c : Pat := plit "!"

/-- The no-capture-list closure regex `\{\s*\[.*\]\s*in` of the retain-cycle rule. -/
def patSC4a : Pat :=
  pseq [plit "\x7b", .star isSpaceChar, plit "[", .star isDotChar, plit "]",
    .star isSpaceChar, plit "in"]

/-- The closure regex `\{[^}]*in` of the retain-cycle rule. -/
def patSC4b : Pat :=
  pseq [plit "\x7b", .star (fun c => c ≠ '\x7d'), plit "in"]

/-- `/self\./` -/
def patSelfDot : Pat := plit "self."

/-- `/\[weak\s+self\]/` -/
def patWeakSelf : Pat := pseq [plit "[weak", pplus isSpaceChar, plit "self]"]

/-- `/class\s+\w+/` -/
def patClassDecl : Pat := pseq [plit "class", pplus isSpaceChar, pplus isWordChar]

/-- `/\bprint\s*\(/` -/
def patSPrint : Pat := pseq [.wb, plit "print", .star isSpaceChar, plit "("]

/-- `/\b(TODO|FIXME)\b/` -/
def patTodo : Pat := pseq [.wb, .alt (plit "TODO") (plit "FIXME"), .wb]

/-- `/\.(text|setNeedsLayout|reloadData|setNeedsDisplay)\b/` -/
def patSC7a : Pat :=
  pseq [plit ".", palts [plit "text", plit "setNeedsLayout", plit "reloadData",
    plit "setNeedsDisplay"], .wb]

/-- `/DispatchQueue\.global/` -/
def patSC7b : Pat := plit "DispatchQueue.global"

/-- Swift skip: `!t || t.startsWith('//')`. -/
def sSkipLine (t : List Char) : Bool := t.isEmpty || startsWithLit "//".data t

/-- Critical findings of one line of the Swift `analyzeCode` loop (the rules
test the trimmed line `t`). -/
def swiftCriticalLine (idx : Nat) (line : List Char) : List SIssue :=
  let n := idx + 1
  let t := jsTrim line
  if sSkipLine t then [] else
  (if reTest patSC1 t then
    [⟨n, "⚠️ Force Try", "Avoid try! — handle errors with do/catch or try?"⟩] else []) ++
  (if reTest patSC2 t then
    [⟨n, "⚠️ Force Cast", "Avoid as! — use as? with safe handling"⟩] else [])

/-- Suggestions of one line of the Swift `analyzeCode` loop. -/
def swiftSuggLine (lines : List (List Char)) (content : List Char) (idx : Nat)
    (line : List Char) : List SSugg :=
  let n := idx + 1
  let t := jsTrim line
  if sSkipLine t then [] else
  (if reTest patSC3a t && !(reTest patSC3b t) && !(reTestA patSC3c t) then
    [⟨n, "Safety", "Avoid force unwrapping (!). Use if let/guard let or nil coalescing"⟩] else []) ++
  (if reTest patSC4a t = false && reTest patSC4b t then
    (let window := joinLines (jsSlice lines (idx - 2) (idx + 8))
     if reTest patSelfDot window && !(reTest patWeakSelf window) &&
        reTest patClassDecl content then
       [⟨n, "Memory", "Consider [weak self] in closures to avoid retain cycles"⟩]
     else []) else []) ++
  (if reTest patSPrint t then
    [⟨n, "Cleanliness", "Remove print() or gate behind DEBUG"⟩] else []) ++
  (if reTest patTodo t then
    [⟨n, "Maintenance", "Address TODO/FIXME before merge"⟩] else []) ++
  (if reTest patSC7a t &&
      reTest patSC7b (joinLines (jsSlice lines (idx - 5) (idx + 1))) then
    [⟨n, "Concurrency", "UI updates must be on main thread (DispatchQueue.main.async)"⟩] else [])

/-- Output of the Swift per-file evaluation. -/
structure SResult where
  critical : List SIssue
  suggestions : List SSugg
deriving DecidableEq

/-- `analyzeCode(content, filename)` of the Swift reviewer. -/
def swiftAnalyzeCode (content : List Char) (filename : String) : SResult :=
  if swiftExcluded filename then ⟨[], []⟩
  else
    let lines := splitLines content
    ⟨(lines.enum.map (fun p => swiftCriticalLine p.1 p.2)).flatten,
     (lines.enum.map (fun p => swiftSuggLine lines content p.1 p.2)).flatten⟩

/-- `/\.swift$/` -/
def patSwiftExt : Pat := pseq [plit ".swift", .eos]

/-- The changed-file filter in the Swift reviewer's `getPRFiles`. -/
def swiftFilterFiles (files : List PRFile) : List PRFile :=
  files.filter (fun f =>
    reTest patSwiftExt f.filename.data && f.status != "removed" &&
      !(reTest (plit "Pods/") f.filename.data) &&
      !(reTest (plit "Carthage/") f.filename.data) &&
      !(reTest (plit ".build/") f.filename.data) &&
      !(reTest (plit "DerivedData/") f.filename.data))

/-! ## Review-run orchestration (`reviewPR` of each reviewer)

The collaborator behaviour is passed in explicitly: `listFiles` is the reply
of `octokit.pulls.listFiles` (`.error` = the call threw), `getContent` the
per-file reply of `octokit.repos.getContent`, and `aiReply` the reply of
`callGroqAI` for a given prompt (`none` = missing key, transport failure or
empty/missing completion content, exactly the cases in which `callGroqAI`
returns `null`). -/

/-- Collaborator behaviour and configuration of one review run. -/
structure ReviewEnv where
  groqKey : Option String
  prNumber : Option Nat
  listFiles : Except Unit (List PRFile)
  getContent : String → Except Unit String
  aiReply : String → Option String

/-- `s.slice(0, n)`. -/
def jsStrSlice (s : String) (n : Nat) : String := String.mk (s.data.take n)

/-- `list.reduce((sum, f) => sum + f.issues.length, 0)`. -/
def totalCritAgg {α : Type} (l : List (String × List α)) : Nat :=
  (l.map (fun fc => fc.2.length)).sum

/-- One element of the rendered review comment, tagged so that the rendering
of a finding is distinguishable from boilerplate: each `comment += ...`
statement of the source contributes entries in order.  `crit` carries
(file, line, type, message); `sugg` carries
(category, file, line, message, priority tag). -/
inductive CEntry where
  | raw : String → CEntry
  | crit : String → Nat → String → String → CEntry
  | sugg : String → String → Nat → String → String → CEntry
deriving DecidableEq

/-- The critical findings rendered by a comment-entry stream. -/
def critEntries (l : List CEntry) : List (String × Nat × String × String) :=
  l.filterMap (fun e =>
    match e with
    | .crit f n t m => some (f, n, t, m)
    | _ => none)

/-- The suggestions rendered by a comment-entry stream. -/
def suggEntries (l : List CEntry) : List (String × String × Nat × String) :=
  l.filterMap (fun e =>
    match e with
    | .sugg c f n m _ => some (c, f, n, m)
    | _ => none)

/-! ### Laravel `reviewPR` -/

/-- The aggregate built by the Laravel `reviewPR` loop. -/
structure LAgg where
  allCritical : List (String × List LIssue)
  allSuggestions : List (String × List LSugg)
  aiReviews : List (String × String)
deriving DecidableEq

/-- The Laravel AI-reply inclusion test
`aiReview && !aiReview.includes('None') && !aiReview.includes('No issues')`. -/
def laravelIncludeAI (aiReview : Option String) : Bool :=
  match aiReview with
  | none => false
  | some s => s != "" && !(jsIncludes s "None") && !(jsIncludes s "No issues")

/-- The per-file AI prompt of the Laravel reviewer. -/
def laravelPrompt (filename patchPreview : String) : String :=
  "File: " ++ filename ++ "\n\nCode changes:\n```diff\n" ++ patchPreview ++
    "\n```\n\nReview ONLY the changed lines above. Report only if you are 100% certain of a critical security or correctness bug."

/-- One iteration of the Laravel per-file loop (the whole body is inside
`try`/`catch`; a content-fetch error leaves the accumulator untouched). -/
def laravelFileStep (env : ReviewEnv) (acc : LAgg) (file : PRFile) : LAgg :=
  match env.getContent file.filename with
  | .error _ => acc
  | .ok content =>
    let r := laravelAnalyzeCode content.data file.filename
    let acc1 := if r.critical.length > 0 then
      { acc with allCritical := acc.allCritical ++ [(file.filename, r.critical)] } else acc
    let acc2 := if r.suggestions.length > 0 then
      { acc1 with allSuggestions := acc1.allSuggestions ++ [(file.filename, r.suggestions)] } else acc1
    match file.patch with
    | none => acc2
    | some patch =>
      if env.groqKey.isSome && patch.length > 50 then
        let aiReview := env.aiReply (laravelPrompt file.filename (jsStrSlice patch 3000))
        if laravelIncludeAI aiReview then
          { acc2 with aiReviews := acc2.aiReviews ++ [(file.filename, aiReview.getD "")] }
        else acc2
      else acc2

/-- The Laravel aggregation over the processed batch (`files.slice(0, 8)`). -/
def laravelRunAgg (env : ReviewEnv) (files : List PRFile) : LAgg :=
  (files.take 8).foldl (laravelFileStep env) ⟨[], [], []⟩

/-- The Laravel review-comment entry stream (one entry per `comment +=`). -/
def laravelCommentEntries (agg : LAgg) : List CEntry :=
  [.raw "## 🤖 Laravel Security Review\n\n"] ++
  (if agg.allCritical.length > 0 then
    [.raw ("⛔ **Found " ++ toString (totalCritAgg agg.allCritical) ++
      " CRITICAL issue(s) that must be fixed before merge**\n\n")] else []) ++
  (if agg.allCritical.length > 0 then
    [.raw "### ⛔ Critical Issues\n\n"] ++
    agg.allCritical.flatMap (fun fc =>
      [.raw ("#### 📄 " ++ fc.1 ++ "\n")] ++
      fc.2.map (fun i => CEntry.crit fc.1 i.line i.type i.message) ++
      [.raw "\n"])
   else []) ++
  (if agg.aiReviews.length > 0 then
    [.raw "### 🧠 AI Deep Analysis\n\n"] ++
    agg.aiReviews.map (fun fr =>
      CEntry.raw ("<details><summary>📄 " ++ fr.1 ++ "</summary>\n\n" ++ fr.2 ++
        "\n\n</details>\n\n"))
   else []) ++
  (if agg.allCritical.length = 0 && agg.aiReviews.length = 0 then
    [.raw "✅ **No security or critical issues detected**\n\n",
     .raw "Code review passed automated checks.\n\n"] else []) ++
  [.raw "\n---\n*💬 Ask questions with `@ai-reviewer [your question]` in comments*"]

/-- Text of one Laravel comment entry
(`- **Line ${issue.line}**: ${issue.message}\n` for critical findings). -/
def laravelEntryText (e : CEntry) : String :=
  match e with
  | .raw s => s
  | .crit _ n _ m => "- **Line " ++ toString n ++ "**: " ++ m ++ "\n"
  | .sugg _ _ _ _ _ => ""

/-- The Laravel review comment body. -/
def laravelComment (agg : LAgg) : String :=
  (laravelCommentEntries agg).foldl (fun a e => a ++ laravelEntryText e) ""

/-- The Laravel gate (`if (hasCritical) process.exitCode = 1`): a pure
function of the aggregate that reads only `allCritical`. -/
def laravelGateExit (agg : LAgg) : Nat :=
  if agg.allCritical.length > 0 then 1 else 0

/-- The whole Laravel `reviewPR`: the posted comment (if any) and the exit
code. -/
def laravelRunResult (env : ReviewEnv) : Option String × Nat :=
  match env.prNumber with
  | none => (none, 0)
  | some _ =>
    let files := match env.listFiles with
      | .error _ => []
      | .ok fs => laravelFilterFiles fs
    if files.isEmpty then (none, 0)
    else
      let agg := laravelRunAgg env files
      (some (laravelComment agg), laravelGateExit agg)

/-! ### React `reviewPR` -/

/-- The aggregate built by the React `reviewPR` loop. -/
structure RAgg where
  allCritical : List (String × List RIssue)
  allSuggestions : List (String × List RSugg)
  aiReviews : List (String × String)
deriving DecidableEq

/-- The React AI-reply inclusion test (same negative phrases as Laravel). -/
def reactIncludeAI (aiReview : Option String) : Bool :=
  match aiReview with
  | none => false
  | some s => s != "" && !(jsIncludes s "None") && !(jsIncludes s "No issues")

/-- The per-file AI prompt of the React reviewer. -/
def reactPrompt (filename patchPreview : String) : String :=
  "File: " ++ filename ++ "\n\nCode changes:\n```diff\n" ++ patchPreview ++
    "\n```\n\nReview ONLY the changed lines. Focus on React 18+ patterns, hooks best practices, and performance. Report only definite bugs."

/-- One iteration of the React per-file loop.  A thrown rule-13 `TypeError`
from `analyzeCode` is caught by the surrounding per-file `try`/`catch`, so it
also leaves the accumulator untouched. -/
def reactFileStep (env : ReviewEnv) (acc : RAgg) (file : PRFile) : RAgg :=
  match env.getContent file.filename with
  | .error _ => acc
  | .ok content =>
    match reactAnalyzeCode content.data file.filename with
    | .error _ => acc
    | .ok r =>
      let acc1 := if r.critical.length > 0 then
        { acc with allCritical := acc.allCritical ++ [(file.filename, r.critical)] } else acc
      let acc2 := if r.suggestions.length > 0 then
        { acc1 with allSuggestions := acc1.allSuggestions ++ [(file.filename, r.suggestions)] } else acc1
      match file.patch with
      | none => acc2
      | some patch =>
        if env.groqKey.isSome && patch.length > 50 then
          let aiReview := env.aiReply (reactPrompt file.filename (jsStrSlice patch 3500))
          if reactIncludeAI aiReview then
            { acc2 with aiReviews := acc2.aiReviews ++ [(file.filename, aiReview.getD "")] }
          else acc2
        else acc2

/-- The React aggregation over the processed batch (`files.slice(0, 10)`). -/
def reactRunAgg (env : ReviewEnv) (files : List PRFile) : RAgg :=
  (files.take 10).foldl (reactFileStep env) ⟨[], [], []⟩

/-- An element of `categorizedSuggestions[category]`:
`{file, line, message, priority}`. -/
structure RItem where
  file : String
  line : Nat
  message : String
  priority : RPriority
deriving DecidableEq

/-- Appending one item to its category bucket
(`categorizedSuggestions[suggestion.category].push(...)`, with JavaScript
object-key insertion order). -/
def addToCat (m : List (String × List RItem)) (cat : String) (it : RItem) :
    List (String × List RItem) :=
  match m with
  | [] => [(cat, [it])]
  | (c, its) :: rest =>
    if c = cat then (c, its ++ [it]) :: rest else (c, its) :: addToCat rest cat it

/-- Building `categorizedSuggestions` from `allSuggestions`.  (The source's
`suggestion.priority || 'medium'` normalization is the identity here because
every rule of the table sets one of the three priorities.) -/
def categorizeSugg (allSuggestions : List (String × List RSugg)) :
    List (String × List RItem) :=
  allSuggestions.foldl (fun m fs =>
    fs.2.foldl (fun m s => addToCat m s.category ⟨fs.1, s.line, s.message, s.priority⟩) m) []

/-- `Math.min(...items.map(s => priorityOrder[s.priority]))`; the base `3` is
inert because category buckets are nonempty. -/
def minPrio (items : List RItem) : Nat :=
  (items.map (fun i => priorityOrder i.priority)).foldr Nat.min 3

/-- Insertion step of the category sort. -/
def insertLE {α : Type} (le : α → α → Bool) (x : α) : List α → List α
  | [] => [x]
  | y :: ys => if le y x then y :: insertLE le x ys else x :: y :: ys

/-- A stable comparison sort modelling `Array.prototype.sort` with the
numeric comparator (only the resulting multiset matters to the theorems). -/
def sortLE {α : Type} (le : α → α → Bool) (l : List α) : List α :=
  l.foldr (insertLE le) []

/-- `sortedCategories` with each category's bucket. -/
def sortedCats (allSuggestions : List (String × List RSugg)) :
    List (String × List RItem) :=
  sortLE (fun a b => Nat.ble (minPrio a.2) (minPrio b.2)) (categorizeSugg allSuggestions)

/-- Priority tag of a React suggestion entry. -/
def prioTag : RPriority → String
  | .high => "high"
  | .medium => "medium"
  | .low => "low"

/-- The React suggestions section of the comment: per sorted category, a
header then the high, medium and low items (the source's
`if (xPriority.length > 0)` guards around the `forEach` loops are no-ops). -/
def reactSuggSection (allSuggestions : List (String × List RSugg)) : List CEntry :=
  if allSuggestions.length > 0 then
    [.raw "### 💡 Best Practice Suggestions\n\n",
     .raw "<details><summary>Click to view React/JavaScript best practices and performance tips</summary>\n\n"] ++
    (sortedCats allSuggestions).flatMap (fun cb =>
      let items := cb.2
      [.raw ("#### " ++ cb.1 ++ "\n\n")] ++
      (items.filter (fun i => i.priority = RPriority.high)).map
        (fun i => CEntry.sugg cb.1 i.file i.line i.message (prioTag i.priority)) ++
      (items.filter (fun i => i.priority = RPriority.medium)).map
        (fun i => CEntry.sugg cb.1 i.file i.line i.message (prioTag i.priority)) ++
      (items.filter (fun i => i.priority = RPriority.low)).map
        (fun i => CEntry.sugg cb.1 i.file i.line i.message (prioTag i.priority)) ++
      [.raw "\n"]) ++
    [.raw "</details>\n\n"]
  else []

/-- The React review-comment entry stream. -/
def reactCommentEntries (agg : RAgg) : List CEntry :=
  [.raw "## 🤖 React/JavaScript Code Review\n\n"] ++
  (if agg.allCritical.length > 0 then
    [.raw ("⛔ **Found " ++ toString (totalCritAgg agg.allCritical) ++
      " CRITICAL issue(s) that must be fixed**\n\n")] else []) ++
  (if agg.allCritical.length > 0 then
    [.raw "### ⛔ Critical Issues\n\n"] ++
    agg.allCritical.flatMap (fun fc =>
      [.raw ("#### 📄 " ++ fc.1 ++ "\n")] ++
      fc.2.map (fun i => CEntry.crit fc.1 i.line i.type i.message) ++
      [.raw "\n"])
   else []) ++
  (if agg.aiReviews.length > 0 then
    [.raw "### 🧠 AI Deep Analysis\n\n"] ++
    agg.aiReviews.map (fun fr =>
      CEntry.raw ("<details><summary>📄 " ++ fr.1 ++ "</summary>\n\n" ++ fr.2 ++
        "\n\n</details>\n\n"))
   else []) ++
  reactSuggSection agg.allSuggestions ++
  (if agg.allCritical.length = 0 && agg.aiReviews.length = 0 then
    [.raw "✅ **No critical issues detected**\n\n",
     .raw "Code review passed automated checks.\n\n"] else []) ++
  [.raw "---\n", .raw "**Priority Legend:** ⚠️ High | 🔸 Medium | 💭 Low\n\n",
   .raw "*💬 Ask questions with `@ai-reviewer [your question]` in comments*"]

/-- Text of one React comment entry. -/
def reactEntryText (e : CEntry) : String :=
  match e with
  | .raw s => s
  | .crit _ n t m => "- **Line " ++ toString n ++ "** [" ++ t ++ "]: " ++ m ++ "\n"
  | .sugg _ f n m p =>
    (if p = "high" then "- ⚠️ **" else if p = "medium" then "- 🔸 **" else "- 💭 **") ++
      f ++ ":" ++ toString n ++ "** - " ++ m ++ "\n"

/-- The React review comment body. -/
def reactComment (agg : RAgg) : String :=
  (reactCommentEntries agg).foldl (fun a e => a ++ reactEntryText e) ""

/-- The React gate: a pure function of the aggregate that reads only
`allCritical`. -/
def reactGateExit (agg : RAgg) : Nat :=
  if agg.allCritical.length > 0 then 1 else 0

/-- The whole React `reviewPR`. -/
def reactRunResult (env : ReviewEnv) : Option String × Nat :=
  match env.prNumber with
  | none => (none, 0)
  | some _ =>
    let files := match env.listFiles with
      | .error _ => []
      | .ok fs => reactFilterFiles fs
    if files.isEmpty then (none, 0)
    else
      let agg := reactRunAgg env files
      (some (reactComment agg), reactGateExit agg)

/-! ### Swift `reviewPR` -/

/-- The aggregate built by the Swift `reviewPR` loop. -/
structure SAgg where
  allCritical : List (String × List SIssue)
  allSuggestions : List (String × List SSugg)
  aiReviews : List (String × String)
deriving DecidableEq

/-- `/None/i` -/
def patNoneCI : Pat := pCI "None"

/-- The Swift AI-reply inclusion test `ai && !/None/i.test(ai)`. -/
def swiftIncludeAI (ai : Option String) : Bool :=
  match ai with
  | none => false
  | some s => s != "" && !(reTest patNoneCI s.data)

/-- The per-file AI prompt of the Swift reviewer. -/
def swiftPrompt (filename patchPreview : String) : String :=
  "File: " ++ filename ++ "\n\nChanged lines:\n```diff\n" ++ patchPreview ++
    "\n```\n\nReview only the diff above. Report definite issues (safety, memory, concurrency)."

/-- One iteration of the Swift per-file loop. -/
def swiftFileStep (env : ReviewEnv) (acc : SAgg) (file : PRFile) : SAgg :=
  match env.getContent file.filename with
  | .error _ => acc
  | .ok content =>
    let r := swiftAnalyzeCode content.data file.filename
    let acc1 := if r.critical.length > 0 then
      { acc with allCritical := acc.allCritical ++ [(file.filename, r.critical)] } else acc
    let acc2 := if r.suggestions.length > 0 then
      { acc1 with allSuggestions := acc1.allSuggestions ++ [(file.filename, r.suggestions)] } else acc1
    match file.patch with
    | none => acc2
    | some patch =>
      if env.groqKey.isSome && patch.length > 50 then
        let ai := env.aiReply (swiftPrompt file.filename (jsStrSlice patch 3000))
        if swiftIncludeAI ai then
          { acc2 with aiReviews := acc2.aiReviews ++ [(file.filename, ai.getD "")] }
        else acc2
      else acc2

/-- The Swift aggregation over the processed batch (`files.slice(0, 10)`). -/
def swiftRunAgg (env : ReviewEnv) (files : List PRFile) : SAgg :=
  (files.take 10).foldl (swiftFileStep env) ⟨[], [], []⟩

/-- The Swift review-comment entry stream. -/
def swiftCommentEntries (agg : SAgg) : List CEntry :=
  [.raw "## 🍎 Swift/iOS Code Review\n\n"] ++
  (if agg.allCritical.length > 0 then
    [.raw ("⛔ **Found " ++ toString (totalCritAgg agg.allCritical) ++
      " CRITICAL issue(s) that must be fixed**\n\n")] else []) ++
  (if agg.allCritical.length > 0 then
    [.raw "### ⛔ Critical Issues\n\n"] ++
    agg.allCritical.flatMap (fun fc =>
      [.raw ("#### 📄 " ++ fc.1 ++ "\n")] ++
      fc.2.map (fun i => CEntry.crit fc.1 i.line i.type i.message) ++
      [.raw "\n"])
   else []) ++
  (if agg.aiReviews.length > 0 then
    [.raw "### 🧠 AI Deep Analysis\n\n"] ++
    agg.aiReviews.map (fun fr =>
      CEntry.raw ("<details><summary>📄 " ++ fr.1 ++ "</summary>\n\n" ++ fr.2 ++
        "\n\n</details>\n\n"))
   else []) ++
  (if agg.allSuggestions.length > 0 then
    [.raw "### 💡 Suggestions\n\n"] ++
    agg.allSuggestions.flatMap (fun fs =>
      fs.2.map (fun s => CEntry.sugg s.category fs.1 s.line s.message "")) ++
    [.raw "\n"]
   else []) ++
  (if agg.allCritical.length = 0 && agg.aiReviews.length = 0 then
    [.raw "✅ **No critical issues detected**\n\n"] else []) ++
  [.raw "---\n*💬 Ask questions with `@ai-reviewer [your question]`*"]

/-- Text of one Swift comment entry
(`- **${file}:${s.line}** - ${s.category}: ${s.message}\n` for suggestions). -/
def swiftEntryText (e : CEntry) : String :=
  match e with
  | .raw s => s
  | .crit _ n t m => "- **Line " ++ toString n ++ "** [" ++ t ++ "]: " ++ m ++ "\n"
  | .sugg c f n m _ => "- **" ++ f ++ ":" ++ toString n ++ "** - " ++ c ++ ": " ++ m ++ "\n"

/-- The Swift review comment body. -/
def swiftComment (agg : SAgg) : String :=
  (swiftCommentEntries agg).foldl (fun a e => a ++ swiftEntryText e) ""

/-- The Swift gate (`process.exitCode = hasCritical ? 1 : 0`). -/
def swiftGateExit (agg : SAgg) : Nat :=
  if agg.allCritical.length > 0 then 1 else 0

/-- The whole Swift `reviewPR`. -/
def swiftRunResult (env : ReviewEnv) : Option String × Nat :=
  match env.prNumber with
  | none => (none, 0)
  | some _ =>
    let files := match env.listFiles with
      | .error _ => []
      | .ok fs => swiftFilterFiles fs
    if files.isEmpty then (none, 0)
    else
      let agg := swiftRunAgg env files
      (some (swiftComment agg), swiftGateExit agg)

/-! ## Stack selector (`scripts/dispatcher.js`) -/

/-- `str.toLowerCase()` on char lists. -/
def jsToLower (cs : List Char) : List Char := cs.map Char.toLower

/-- `parseLanguages(input)` (shared by both dispatchers). -/
def parseLanguages (input : String) : List String :=
  if input = "" || jsTrim input.data = [] || jsToLower (jsTrim input.data) = "auto".data
  then ["auto"]
  else ((splitOnCh ',' input.data).map (fun s => String.mk (jsToLower (jsTrim s)))).filter
    (fun s => s != "")

/-- `detectLanguagesFromPR()`: `prNumber` is the parsed
`event.pull_request.number`, `none` covering both a missing number and a
thrown/unreadable event payload (the `catch` branch).  The function never
looks at the changed files: with a PR number it returns the fixed pair. -/
def detectLanguagesFromPR (prNumber : Option Nat) : List String :=
  match prNumber with
  | none => []
  | some _ => ["react", "laravel"]

/-- The `scriptMap` of `dispatcher.js`. -/
def scriptMap (name : String) : Option String :=
  if name = "react" then some "react-reviewer.js"
  else if name = "laravel" then some "laravel-reviewer.js"
  else none

/-- `runScript(name)`: an unmapped name returns `0` without spawning
anything; otherwise the spawned script's exit status (`res.status || 0`). -/
def runScript (spawn : String → Nat) (name : String) : Nat :=
  match scriptMap name with
  | none => 0
  | some path => spawn path

/-- The selection computed by the dispatcher's main IIFE. -/
def dispatcherToRun (input : String) (prNumber : Option Nat) : List String :=
  let langsInput := parseLanguages input
  let toRun := if langsInput.contains "auto" then detectLanguagesFromPR prNumber
    else langsInput
  if toRun.isEmpty then ["react"] else toRun

/-- The dispatcher's exit code: the last non-zero reviewer status, else 0. -/
def dispatcherExit (spawn : String → Nat) (input : String) (prNumber : Option Nat) : Nat :=
  (dispatcherToRun input prNumber).foldl
    (fun fail lang =>
      let code := runScript spawn lang
      if code ≠ 0 then code else fail) 0

/-- The spawn behaviour of the review dispatcher when composed with the two
reviewers it can actually spawn, each with its own collaborator behaviour. -/
def composedSpawn (envR envL : ReviewEnv) (path : String) : Nat :=
  if path = "react-reviewer.js" then (reactRunResult envR).2
  else if path = "laravel-reviewer.js" then (laravelRunResult envL).2
  else 0

/-! ## Comment dispatcher (`scripts/comment-dispatcher.js`) -/

/-- The `scriptMap` of `comment-dispatcher.js`. -/
def commentScriptMap (name : String) : Option String :=
  if name = "react" then some "react-comment-handler.js"
  else if name = "laravel" then some "comment-handler-laravel.js"
  else none

/-- The comment dispatcher's selection: in auto mode it runs the fixed pair
(`// In auto mode, run both`). -/
def commentToRun (input : String) : List String :=
  let langs := parseLanguages input
  if langs.contains "auto" then ["react", "laravel"] else langs

/-! ## Interactive Q&A handlers -/

/-- Case-insensitive literal consumption (for the `gi`-flagged mention
regex). -/
def dropLitCI : List Char → List Char → Option (List Char)
  | [], cs => some cs
  | _ :: _, [] => none
  | p :: ps, c :: cs => if c.toLower = p.toLower then dropLitCI ps cs else none

theorem dropLitCI_length {l cs rest : List Char} :
    dropLitCI l cs = some rest → rest.length + l.length = cs.length := by
  induction l generalizing cs with
  | nil => intro h; simp only [dropLitCI, Option.some.injEq] at h; simp [← h]
  | cons p ps ih =>
    intro h
    cases cs with
    | nil => simp [dropLitCI] at h
    | cons c cs' =>
      by_cases hc : c.toLower = p.toLower
      · simp only [dropLitCI, if_pos hc] at h
        have := ih h
        simp [List.length_cons]
        omega
      · simp [dropLitCI, hc] at h

/-- Fuel-driven core of `stripMention` (the fuel is structural so the
function evaluates inside the kernel; a successful mention match always
consumes at least one character, so fuel `length + 1` never runs dry). -/
def stripMentionAux : Nat → List Char → List Char
  | 0, _ => []
  | _ + 1, [] => []
  | fuel + 1, c :: cs =>
    match dropLitCI "@ai-reviewer".data (c :: cs) with
    | some rest => stripMentionAux fuel rest
    | none => c :: stripMentionAux fuel cs

/-- `comment.replace(/@ai-reviewer/gi, '')`: removes every (leftmost-first,
non-overlapping, case-insensitive) occurrence of the mention token. -/
def stripMention (cs : List Char) : List Char :=
  stripMentionAux (cs.length + 1) cs

/-- `extractQuestion(comment)` of the comment handlers. -/
def extractQuestion (comment : String) : String :=
  String.mk (jsTrim (stripMention comment.data))

/-- Outcome of the underlying completion call of `askAI`:
`httpNotOk` = response arrived with a non-2xx status, `netError` = the fetch
(or subsequent parsing) threw, `got c` = parsed reply with
`choices[0]?.message?.content` equal to `c` (`none` when absent). -/
inductive AIOutcome where
  | httpNotOk
  | netError
  | got : Option String → AIOutcome
deriving DecidableEq

/-- `askAI` of the React comment handler. -/
def reactAskAI (groqKey : Option String) (t : AIOutcome) : String :=
  match groqKey with
  | none => "⚠️ GROQ_API_KEY not configured. Add it to GitHub Secrets to enable AI responses."
  | some _ =>
    match t with
    | .httpNotOk => "❌ Error communicating with AI service"
    | .netError => "❌ Error communicating with AI"
    | .got c =>
      let v := c.getD ""
      if v = "" then "❌ Unable to get AI response" else v

/-- `askAI` of the Laravel comment handler (it has no `response.ok` check:
a non-2xx reply leads to the `data.choices[0]` dereference throwing inside
the `try`, hence the catch-branch message). -/
def laravelAskAI (groqKey : Option String) (t : AIOutcome) : String :=
  match groqKey with
  | none => "⚠️ GROQ_API_KEY not configured. Add it to GitHub Secrets to enable AI responses."
  | some _ =>
    match t with
    | .httpNotOk => "❌ Error communicating with AI"
    | .netError => "❌ Error communicating with AI"
    | .got c =>
      let v := c.getD ""
      if v = "" then "❌ Unable to get AI response" else v

/-- Inputs of one comment-handler invocation.  The PR context and
file-snippet lookups feed only the completion request, whose reply is already
determined by the `ai` field, so they need no further structure here. -/
structure CHEnv where
  groqKey : Option String
  commentBody : String
  ai : AIOutcome

/-- The fixed help reply of the React comment handler. -/
def reactHelpReply : String :=
  "👋 Hi! I\x27m the AI code reviewer. Ask me anything about this React/JavaScript code!\n\n**Examples:**\n- `@ai-reviewer explain this hook pattern`\n- `@ai-reviewer how can I improve performance?`\n- `@ai-reviewer is this the best way to handle state?`\n- `@ai-reviewer what\x27s wrong with this useEffect?`\n- `@ai-reviewer suggest alternatives for this component`\n\nI\x27m familiar with React 18+, TypeScript, modern hooks, and performance optimization."

/-- The fixed help reply of the Laravel comment handler. -/
def laravelHelpReply : String :=
  "👋 Mention `@ai-reviewer` followed by your question!\n\nExamples:\n- @ai-reviewer explain this eloquent query\n- @ai-reviewer how can I prevent SQL injection here?\n- @ai-reviewer is this the best approach for validation?"

/-- `handleComment()` of the React comment handler: the list of comment
bodies it passes to `postReply` (in order). -/
def reactHandleComment (env : CHEnv) : List String :=
  let question := extractQuestion env.commentBody
  if question = "" then [reactHelpReply]
  else
    let answer := reactAskAI env.groqKey env.ai
    ["### 🤖 AI Reviewer Response (React)\n\n" ++ answer ++
      "\n\n---\n*Have more questions? Just mention `@ai-reviewer` followed by your question!*"]

/-- `handleComment()` of the Laravel comment handler. -/
def laravelHandleComment (env : CHEnv) : List String :=
  let question := extractQuestion env.commentBody
  if question = "" then [laravelHelpReply]
  else
    let answer := laravelAskAI env.groqKey env.ai
    ["**@ai-reviewer (Laravel):** " ++ answer ++
      "\n\n---\n*Ask me anything by mentioning @ai-reviewer*"]

/-- All reply comments posted by one comment-dispatcher run: the handlers
spawned for the selected languages, each contributing its posted bodies. -/
def commentDispatcherPosted (input : String) (envR envL : CHEnv) : List String :=
  (commentToRun input).flatMap (fun lang =>
    match commentScriptMap lang with
    | none => []
    | some path =>
      if path = "react-comment-handler.js" then reactHandleComment envR
      else laravelHandleComment envL)

/-! ## Derived views of the runs, used by the claim statements -/

/-- The Laravel run's per-file contribution to `allCritical`. -/
def lNewCrit (env : ReviewEnv) (f : PRFile) : List (String × List LIssue) :=
  match env.getContent f.filename with
  | .error _ => []
  | .ok content =>
    let r := laravelAnalyzeCode content.data f.filename
    if r.critical.length > 0 then [(f.filename, r.critical)] else []

/-- The Laravel run's per-file contribution to `allSuggestions`. -/
def lNewSugg (env : ReviewEnv) (f : PRFile) : List (String × List LSugg) :=
  match env.getContent f.filename with
  | .error _ => []
  | .ok content =>
    let r := laravelAnalyzeCode content.data f.filename
    if r.suggestions.length > 0 then [(f.filename, r.suggestions)] else []

/-- The Laravel run's per-file contribution to `aiReviews`. -/
def lNewAI (env : ReviewEnv) (f : PRFile) : List (String × String) :=
  match env.getContent f.filename with
  | .error _ => []
  | .ok _ =>
    match f.patch with
    | none => []
    | some patch =>
      if env.groqKey.isSome && patch.length > 50 then
        let aiReview := env.aiReply (laravelPrompt f.filename (jsStrSlice patch 3000))
        if laravelIncludeAI aiReview then [(f.filename, aiReview.getD "")] else []
      else []

/-- The React run's per-file contribution to `allCritical`. -/
def rNewCrit (env : ReviewEnv) (f : PRFile) : List (String × List RIssue) :=
  match env.getContent f.filename with
  | .error _ => []
  | .ok content =>
    match reactAnalyzeCode content.data f.filename with
    | .error _ => []
    | .ok r => if r.critical.length > 0 then [(f.filename, r.critical)] else []

/-- The React run's per-file contribution to `allSuggestions`. -/
def rNewSugg (env : ReviewEnv) (f : PRFile) : List (String × List RSugg) :=
  match env.getContent f.filename with
  | .error _ => []
  | .ok content =>
    match reactAnalyzeCode content.data f.filename with
    | .error _ => []
    | .ok r => if r.suggestions.length > 0 then [(f.filename, r.suggestions)] else []

/-- The React run's per-file contribution to `aiReviews`. -/
def rNewAI (env : ReviewEnv) (f : PRFile) : List (String × String) :=
  match env.getContent f.filename with
  | .error _ => []
  | .ok content =>
    match reactAnalyzeCode content.data f.filename with
    | .error _ => []
    | .ok _ =>
      match f.patch with
      | none => []
      | some patch =>
        if env.groqKey.isSome && patch.length > 50 then
          let aiReview := env.aiReply (reactPrompt f.filename (jsStrSlice patch 3500))
          if reactIncludeAI aiReview then [(f.filename, aiReview.getD "")] else []
        else []

/-- The Swift run's per-file contribution to `aiReviews`. -/
def sNewAI (env : ReviewEnv) (f : PRFile) : List (String × String) :=
  match env.getContent f.filename with
  | .error _ => []
  | .ok _ =>
    match f.patch with
    | none => []
    | some patch =>
      if env.groqKey.isSome && patch.length > 50 then
        let ai := env.aiReply (swiftPrompt f.filename (jsStrSlice patch 3000))
        if swiftIncludeAI ai then [(f.filename, ai.getD "")] else []
      else []

/-- The number of critical findings a Laravel run aggregates. -/
def laravelRunCritCount (env : ReviewEnv) : Nat :=
  match env.prNumber with
  | none => 0
  | some _ =>
    let files := match env.listFiles with
      | .error _ => []
      | .ok fs => laravelFilterFiles fs
    if files.isEmpty then 0 else totalCritAgg (laravelRunAgg env files).allCritical

/-- The number of critical findings a React run aggregates. -/
def reactRunCritCount (env : ReviewEnv) : Nat :=
  match env.prNumber with
  | none => 0
  | some _ =>
    let files := match env.listFiles with
      | .error _ => []
      | .ok fs => reactFilterFiles fs
    if files.isEmpty then 0 else totalCritAgg (reactRunAgg env files).allCritical

/-- Total critical findings across the dispatcher's selected profiles (an
unmapped language spawns nothing, hence contributes zero). -/
def selectedCritTotal (envR envL : ReviewEnv) (langs : List String) : Nat :=
  (langs.map (fun lang =>
    if lang = "react" then reactRunCritCount envR
    else if lang = "laravel" then laravelRunCritCount envL
    else 0)).sum

/-- The (file, line, type, message) view of an aggregate's critical findings,
in aggregation order. -/
def lCritItems (agg : LAgg) : List (String × Nat × String × String) :=
  agg.allCritical.flatMap (fun fc => fc.2.map (fun i => (fc.1, i.line, i.type, i.message)))

/-- React version of `lCritItems`. -/
def rCritItems (agg : RAgg) : List (String × Nat × String × String) :=
  agg.allCritical.flatMap (fun fc => fc.2.map (fun i => (fc.1, i.line, i.type, i.message)))

/-- Swift version of `lCritItems`. -/
def sCritItems (agg : SAgg) : List (String × Nat × String × String) :=
  agg.allCritical.flatMap (fun fc => fc.2.map (fun i => (fc.1, i.line, i.type, i.message)))

/-- The (category, file, line, message) view of a React aggregate's
suggestions. -/
def rSuggItems (agg : RAgg) : List (String × String × Nat × String) :=
  agg.allSuggestions.flatMap (fun fs =>
    fs.2.map (fun s => (s.category, fs.1, s.line, s.message)))

/-- The (category, file, line, message) view of a Swift aggregate's
suggestions. -/
def sSuggItems (agg : SAgg) : List (String × String × Nat × String) :=
  agg.allSuggestions.flatMap (fun fs =>
    fs.2.map (fun s => (s.category, fs.1, s.line, s.message)))

/-- The (category, file, line, message) view of a category map. -/
def catTagged (m : List (String × List RItem)) : List (String × String × Nat × String) :=
  m.flatMap (fun cb => cb.2.map (fun i => (cb.1, i.file, i.line, i.message)))

/-- The negative phrases of the Laravel/React reply normalization. -/
def laravelNegPhrase (s : String) : Bool :=
  jsIncludes s "None" || jsIncludes s "No issues"

/-- The negative phrase of the Swift reply normalization. -/
def swiftNegPhrase (s : String) : Bool := reTest patNoneCI s.data

/-- The fallback messages `askAI` of the React handler can return instead of
an AI answer. -/
def reactFallbackMsgs : List String :=
  ["⚠️ GROQ_API_KEY not configured. Add it to GitHub Secrets to enable AI responses.",
   "❌ Error communicating with AI service",
   "❌ Error communicating with AI",
   "❌ Unable to get AI response"]

/-- The fallback messages `askAI` of the Laravel handler can return. -/
def laravelFallbackMsgs : List String :=
  ["⚠️ GROQ_API_KEY not configured. Add it to GitHub Secrets to enable AI responses.",
   "❌ Error communicating with AI",
   "❌ Unable to get AI response"]

/-! ### Concrete fixtures for counterexamples and witnesses -/

/-- A changed-file list holding a single documentation file. -/
def exDocFiles : List PRFile := [⟨"README.md", "modified", none, 0, 0⟩]

/-- A Laravel aggregate holding one suggestion and nothing else. -/
def exSuggAgg : LAgg :=
  ⟨[], [("app/Http/Controllers/UserController.php",
    [⟨12, "✅ Validation",
      "Consider using Form Request classes for complex validations to keep controllers thin"⟩])], []⟩

/-- A run environment whose changed-file listing fails (the
`octokit.pulls.listFiles` call throws). -/
def exListErrEnv : ReviewEnv :=
  ⟨none, some 1, .error (), fun _ => .error (), fun _ => none⟩

/-- A run environment with one PHP file whose content carries a `dd(...)`
debug call. -/
def exCritEnv : ReviewEnv :=
  ⟨none, some 1, .ok [⟨"app/A.php", "modified", none, 0, 0⟩],
    fun _ => .ok "dd($x);", fun _ => none⟩

/-- A comment-handler environment: a bare mention with no question and no AI
credential. -/
def exCHEnv : CHEnv := ⟨none, "@ai-reviewer", .got none⟩

/-- A comment-handler environment with a question but no AI credential. -/
def exCHEnvQ : CHEnv := ⟨none, "@ai-reviewer explain this", .got none⟩

/-- A changed PHP file with a patch long enough to trigger the AI request. -/
def exAIFile : PRFile :=
  ⟨"app/A.php", "modified",
   some "this patch text is certainly longer than fifty characters in total", 0, 0⟩

/-- A run environment whose AI reply reports a definite bug. -/
def exAIEnv : ReviewEnv :=
  ⟨some "k", some 1, .ok [exAIFile], fun _ => .ok "echo 1;",
   fun _ => some "CRITICAL:\n- Line 2: definite bug"⟩

/-! ## General helper lemmas -/

theorem dropLit_eq_append {l cs rest : List Char} :
    dropLit l cs = some rest → cs = l ++ rest := by
  induction l generalizing cs with
  | nil => intro h; simp only [dropLit, Option.some.injEq] at h; simp [h]
  | cons p ps ih =>
    intro h
    cases cs with
    | nil => simp [dropLit] at h
    | cons c cs' =>
      by_cases hc : c = p
      · subst hc
        simp only [dropLit, if_pos rfl] at h
        simpa using ih h
      · simp [dropLit, hc] at h

theorem dropLit_self (l r : List Char) : dropLit l (l ++ r) = some r := by
  induction l with
  | nil => rfl
  | cons c cs ih => simp [dropLit, ih]

theorem containsSub_here (sub rest : List Char) : containsSub sub (sub ++ rest) = true := by
  cases hs : sub ++ rest with
  | nil =>
    have : sub = [] := by
      cases sub with
      | nil => rfl
      | cons a l => simp at hs
    simp [containsSub, this]
  | cons c cs =>
    rw [containsSub, ← hs, dropLit_self]

theorem containsSub_cons (sub : List Char) (x : Char) (cs : List Char)
    (h : containsSub sub cs = true) : containsSub sub (x :: cs) = true := by
  rw [containsSub]
  cases hd : dropLit sub (x :: cs) with
  | some r => rfl
  | none => simpa using h

theorem containsSub_append_left (pre sub cs : List Char)
    (h : containsSub sub cs = true) : containsSub sub (pre ++ cs) = true := by
  induction pre with
  | nil => simpa using h
  | cons x xs ih => exact containsSub_cons _ _ _ ih

theorem jsIncludes_sandwich (pre mid post : String) :
    jsIncludes (pre ++ mid ++ post) mid = true := by
  show containsSub mid.data (pre ++ mid ++ post).data = true
  have : (pre ++ mid ++ post).data = pre.data ++ (mid.data ++ post.data) := by
    simp [String.data_append]
  rw [this]
  exact containsSub_append_left _ _ _ (containsSub_here _ _)

theorem listSum_pos_iff (l : List Nat) : 0 < l.sum ↔ ∃ x ∈ l, 0 < x := by
  induction l with
  | nil => simp
  | cons x xs ih =>
    simp only [List.sum_cons, List.mem_cons, exists_eq_or_imp, ← ih]
    omega

/-- One step of the dispatcher's exit fold is nonzero iff the initial value
was or some selected language's script exits nonzero. -/
theorem dispatchFold_ne_zero (f : String → Nat) (l : List String) (init : Nat) :
    (l.foldl (fun fail lang =>
      let code := f lang
      if code ≠ 0 then code else fail) init ≠ 0) ↔
      (init ≠ 0 ∨ ∃ lang ∈ l, f lang ≠ 0) := by
  induction l generalizing init with
  | nil => simp
  | cons x xs ih =>
    simp only [List.foldl_cons, List.mem_cons, exists_eq_or_imp]
    rw [ih]
    by_cases hx : f x = 0 <;> simp [hx]

/-! ## Aggregation-structure lemmas: each processed file contributes its own
slice to the run aggregate, independently of the other files. -/

theorem laravelFileStep_crit (env : ReviewEnv) (acc : LAgg) (f : PRFile) :
    (laravelFileStep env acc f).allCritical = acc.allCritical ++ lNewCrit env f := by
  unfold laravelFileStep lNewCrit
  cases env.getContent f.filename with
  | error e => simp
  | ok content =>
    dsimp only
    cases f.patch <;> split_ifs <;> simp <;> (try (split_ifs <;> simp))

theorem laravelFileStep_sugg (env : ReviewEnv) (acc : LAgg) (f : PRFile) :
    (laravelFileStep env acc f).allSuggestions = acc.allSuggestions ++ lNewSugg env f := by
  unfold laravelFileStep lNewSugg
  cases env.getContent f.filename with
  | error e => simp
  | ok content =>
    dsimp only
    cases f.patch <;> split_ifs <;> simp <;> (try (split_ifs <;> simp))

theorem laravelFileStep_ai (env : ReviewEnv) (acc : LAgg) (f : PRFile) :
    (laravelFileStep env acc f).aiReviews = acc.aiReviews ++ lNewAI env f := by
  unfold laravelFileStep lNewAI
  cases env.getContent f.filename with
  | error e => simp
  | ok content =>
    dsimp only
    cases f.patch <;> split_ifs <;> simp <;> (try (split_ifs <;> simp))

theorem foldl_laravelStep_crit (env : ReviewEnv) (l : List PRFile) (acc : LAgg) :
    (l.foldl (laravelFileStep env) acc).allCritical =
      acc.allCritical ++ l.flatMap (lNewCrit env) := by
  induction l generalizing acc with
  | nil => simp
  | cons f fs ih =>
    simp [List.foldl_cons, ih, laravelFileStep_crit]

theorem foldl_laravelStep_sugg (env : ReviewEnv) (l : List PRFile) (acc : LAgg) :
    (l.foldl (laravelFileStep env) acc).allSuggestions =
      acc.allSuggestions ++ l.flatMap (lNewSugg env) := by
  induction l generalizing acc with
  | nil => simp
  | cons f fs ih =>
    simp [List.foldl_cons, ih, laravelFileStep_sugg]

theorem foldl_laravelStep_ai (env : ReviewEnv) (l : List PRFile) (acc : LAgg) :
    (l.foldl (laravelFileStep env) acc).aiReviews =
      acc.aiReviews ++ l.flatMap (lNewAI env) := by
  induction l generalizing acc with
  | nil => simp
  | cons f fs ih =>
    simp [List.foldl_cons, ih, laravelFileStep_ai]

theorem laravelRunAgg_eq (env : ReviewEnv) (files : List PRFile) :
    laravelRunAgg env files =
      ⟨(files.take 8).flatMap (lNewCrit env), (files.take 8).flatMap (lNewSugg env),
       (files.take 8).flatMap (lNewAI env)⟩ := by
  have h1 := foldl_laravelStep_crit env (files.take 8) ⟨[], [], []⟩
  have h2 := foldl_laravelStep_sugg env (files.take 8) ⟨[], [], []⟩
  have h3 := foldl_laravelStep_ai env (files.take 8) ⟨[], [], []⟩
  simp only [laravelRunAgg]
  cases hagg : (files.take 8).foldl (laravelFileStep env) ⟨[], [], []⟩
  rw [hagg] at h1 h2 h3
  simp_all

theorem reactFileStep_crit (env : ReviewEnv) (acc : RAgg) (f : PRFile) :
    (reactFileStep env acc f).allCritical = acc.allCritical ++ rNewCrit env f := by
  unfold reactFileStep rNewCrit
  cases env.getContent f.filename with
  | error e => simp
  | ok content =>
    cases hr : reactAnalyzeCode content.data f.filename with
    | error u => simp [hr]
    | ok r =>
      simp only [hr]
      try dsimp only
      cases f.patch <;> split_ifs <;> simp <;> (try (split_ifs <;> simp))

theorem reactFileStep_sugg (env : ReviewEnv) (acc : RAgg) (f : PRFile) :
    (reactFileStep env acc f).allSuggestions = acc.allSuggestions ++ rNewSugg env f := by
  unfold reactFileStep rNewSugg
  cases env.getContent f.filename with
  | error e => simp
  | ok content =>
    cases hr : reactAnalyzeCode content.data f.filename with
    | error u => simp [hr]
    | ok r =>
      simp only [hr]
      try dsimp only
      cases f.patch <;> split_ifs <;> simp <;> (try (split_ifs <;> simp))

theorem reactFileStep_ai (env : ReviewEnv) (acc : RAgg) (f : PRFile) :
    (reactFileStep env acc f).aiReviews = acc.aiReviews ++ rNewAI env f := by
  unfold reactFileStep rNewAI
  cases env.getContent f.filename with
  | error e => simp
  | ok content =>
    cases hr : reactAnalyzeCode content.data f.filename with
    | error u => simp [hr]
    | ok r =>
      simp only [hr]
      try dsimp only
      cases f.patch <;> split_ifs <;> simp <;> (try (split_ifs <;> simp))

theorem foldl_reactStep_crit (env : ReviewEnv) (l : List PRFile) (acc : RAgg) :
    (l.foldl (reactFileStep env) acc).allCritical =
      acc.allCritical ++ l.flatMap (rNewCrit env) := by
  induction l generalizing acc with
  | nil => simp
  | cons f fs ih =>
    simp [List.foldl_cons, ih, reactFileStep_crit]

theorem foldl_reactStep_sugg (env : ReviewEnv) (l : List PRFile) (acc : RAgg) :
    (l.foldl (reactFileStep env) acc).allSuggestions =
      acc.allSuggestions ++ l.flatMap (rNewSugg env) := by
  induction l generalizing acc with
  | nil => simp
  | cons f fs ih =>
    simp [List.foldl_cons, ih, reactFileStep_sugg]

theorem foldl_reactStep_ai (env : ReviewEnv) (l : List PRFile) (acc : RAgg) :
    (l.foldl (reactFileStep env) acc).aiReviews =
      acc.aiReviews ++ l.flatMap (rNewAI env) := by
  induction l generalizing acc with
  | nil => simp
  | cons f fs ih =>
    simp [List.foldl_cons, ih, reactFileStep_ai]

theorem reactRunAgg_eq (env : ReviewEnv) (files : List PRFile) :
    reactRunAgg env files =
      ⟨(files.take 10).flatMap (rNewCrit env), (files.take 10).flatMap (rNewSugg env),
       (files.take 10).flatMap (rNewAI env)⟩ := by
  have h1 := foldl_reactStep_crit env (files.take 10) ⟨[], [], []⟩
  have h2 := foldl_reactStep_sugg env (files.take 10) ⟨[], [], []⟩
  have h3 := foldl_reactStep_ai env (files.take 10) ⟨[], [], []⟩
  simp only [reactRunAgg]
  cases hagg : (files.take 10).foldl (reactFileStep env) ⟨[], [], []⟩
  rw [hagg] at h1 h2 h3
  simp_all

theorem swiftFileStep_ai (env : ReviewEnv) (acc : SAgg) (f : PRFile) :
    (swiftFileStep env acc f).aiReviews = acc.aiReviews ++ sNewAI env f := by
  unfold swiftFileStep sNewAI
  cases env.getContent f.filename with
  | error e => simp
  | ok content =>
    dsimp only
    cases f.patch <;> split_ifs <;> simp <;> (try (split_ifs <;> simp))

theorem foldl_swiftStep_ai (env : ReviewEnv) (l : List PRFile) (acc : SAgg) :
    (l.foldl (swiftFileStep env) acc).aiReviews =
      acc.aiReviews ++ l.flatMap (sNewAI env) := by
  induction l generalizing acc with
  | nil => simp
  | cons f fs ih =>
    simp [List.foldl_cons, ih, swiftFileStep_ai]

theorem swiftRunAgg_ai (env : ReviewEnv) (files : List PRFile) :
    (swiftRunAgg env files).aiReviews = (files.take 10).flatMap (sNewAI env) := by
  simpa [swiftRunAgg] using foldl_swiftStep_ai env (files.take 10) ⟨[], [], []⟩

/-! ## Gate lemmas -/

theorem lNewCrit_mem_ne_nil {env : ReviewEnv} {f : PRFile}
    {e : String × List LIssue} (h : e ∈ lNewCrit env f) : e.2 ≠ [] := by
  unfold lNewCrit at h
  cases hc : env.getContent f.filename with
  | error u => rw [hc] at h; simp at h
  | ok content =>
    rw [hc] at h
    dsimp only at h
    split at h
    · rename_i hlen
      simp only [List.mem_singleton] at h
      subst h
      simpa using List.length_pos.mp hlen
    · simp at h

theorem rNewCrit_mem_ne_nil {env : ReviewEnv} {f : PRFile}
    {e : String × List RIssue} (h : e ∈ rNewCrit env f) : e.2 ≠ [] := by
  unfold rNewCrit at h
  cases hc : env.getContent f.filename with
  | error u => rw [hc] at h; simp at h
  | ok content =>
    rw [hc] at h
    dsimp only at h
    cases hr : reactAnalyzeCode content.data f.filename with
    | error u => rw [hr] at h; simp at h
    | ok r =>
      rw [hr] at h
      dsimp only at h
      split at h
      · rename_i hlen
        simp only [List.mem_singleton] at h
        subst h
        simpa using List.length_pos.mp hlen
      · simp at h

theorem totalCritAgg_pos {α : Type} {l : List (String × List α)}
    (h : ∀ e ∈ l, e.2 ≠ []) : 0 < totalCritAgg l ↔ l ≠ [] := by
  unfold totalCritAgg
  rw [listSum_pos_iff]
  constructor
  · rintro ⟨x, hx, _⟩ hnil
    subst hnil
    simp at hx
  · intro hne
    cases l with
    | nil => exact absurd rfl hne
    | cons e rest =>
      exact ⟨e.2.length, by simp, List.length_pos.mpr (h e (by simp))⟩

/-- The Laravel run exits nonzero exactly when it aggregated a critical
finding. -/
theorem laravelExit_iff (env : ReviewEnv) :
    (laravelRunResult env).2 ≠ 0 ↔ 0 < laravelRunCritCount env := by
  unfold laravelRunResult laravelRunCritCount
  cases env.prNumber with
  | none => simp
  | some n =>
    dsimp only
    cases env.listFiles with
    | error e => simp
    | ok fs =>
      by_cases hemp : (laravelFilterFiles fs).isEmpty
      · simp [hemp]
      · simp only [hemp, Bool.false_eq_true, if_false]
        have hinv : ∀ e ∈ (laravelRunAgg env (laravelFilterFiles fs)).allCritical,
            e.2 ≠ [] := by
          intro e he
          rw [laravelRunAgg_eq] at he
          rcases List.mem_flatMap.mp he with ⟨f, _, hf⟩
          exact lNewCrit_mem_ne_nil hf
        unfold laravelGateExit
        by_cases hc : 0 < (laravelRunAgg env (laravelFilterFiles fs)).allCritical.length
        · simp only [hc, if_true]
          simp only [ne_eq, one_ne_zero, not_false_eq_true, true_iff]
          exact (totalCritAgg_pos hinv).mpr (by simpa using List.length_pos.mp hc)
        · simp only [hc, if_false]
          simp only [ne_eq, not_true_eq_false, false_iff, Nat.not_lt, Nat.le_zero]
          have : (laravelRunAgg env (laravelFilterFiles fs)).allCritical = [] := by
            have := Nat.eq_zero_of_not_pos hc
            exact List.length_eq_zero.mp this
          simp [totalCritAgg, this]

/-- The React run exits nonzero exactly when it aggregated a critical
finding. -/
theorem reactExit_iff (env : ReviewEnv) :
    (reactRunResult env).2 ≠ 0 ↔ 0 < reactRunCritCount env := by
  unfold reactRunResult reactRunCritCount
  cases env.prNumber with
  | none => simp
  | some n =>
    dsimp only
    cases env.listFiles with
    | error e => simp
    | ok fs =>
      by_cases hemp : (reactFilterFiles fs).isEmpty
      · simp [hemp]
      · simp only [hemp, Bool.false_eq_true, if_false]
        have hinv : ∀ e ∈ (reactRunAgg env (reactFilterFiles fs)).allCritical,
            e.2 ≠ [] := by
          intro e he
          rw [reactRunAgg_eq] at he
          rcases List.mem_flatMap.mp he with ⟨f, _, hf⟩
          exact rNewCrit_mem_ne_nil hf
        unfold reactGateExit
        by_cases hc : 0 < (reactRunAgg env (reactFilterFiles fs)).allCritical.length
        · simp only [hc, if_true]
          simp only [ne_eq, one_ne_zero, not_false_eq_true, true_iff]
          exact (totalCritAgg_pos hinv).mpr (by simpa using List.length_pos.mp hc)
        · simp only [hc, if_false]
          simp only [ne_eq, not_true_eq_false, false_iff, Nat.not_lt, Nat.le_zero]
          have : (reactRunAgg env (reactFilterFiles fs)).allCritical = [] := by
            have := Nat.eq_zero_of_not_pos hc
            exact List.length_eq_zero.mp this
          simp [totalCritAgg, this]

/-- The dispatcher spawns exactly the two mapped reviewer scripts. -/
theorem runScript_composed (envR envL : ReviewEnv) (lang : String) :
    runScript (composedSpawn envR envL) lang =
      (if lang = "react" then (reactRunResult envR).2
       else if lang = "laravel" then (laravelRunResult envL).2 else 0) := by
  unfold runScript scriptMap composedSpawn
  by_cases h1 : lang = "react"
  · subst h1; simp
  · by_cases h2 : lang = "laravel"
    · subst h2; simp
    · simp [h1, h2]

/-! ## C1: the gate -/

/-- C1: for every pair of reviewer collaborator behaviours and every
selection input, the dispatcher's outcome is failing (nonzero) iff the total
number of critical findings aggregated across the selected profiles is
positive; and each reviewer's gate is a function of the critical findings
only — replacing the suggestions or the AI narratives of the aggregate (in
particular, adding any suggestion-only finding) never changes the exit. -/
theorem C1_gate_iff_critical (envR envL : ReviewEnv) (input : String) (pr : Option Nat) :
    (dispatcherExit (composedSpawn envR envL) input pr ≠ 0 ↔
      0 < selectedCritTotal envR envL (dispatcherToRun input pr)) ∧
    (∀ (c : List (String × List LIssue)) (s s' : List (String × List LSugg))
        (a a' : List (String × String)),
      laravelGateExit ⟨c, s, a⟩ = laravelGateExit ⟨c, s', a'⟩) ∧
    (∀ (c : List (String × List RIssue)) (s s' : List (String × List RSugg))
        (a a' : List (String × String)),
      reactGateExit ⟨c, s, a⟩ = reactGateExit ⟨c, s', a'⟩) := by
  refine ⟨?_, fun c s s' a a' => rfl, fun c s s' a a' => rfl⟩
  have key : ∀ lang, (runScript (composedSpawn envR envL) lang ≠ 0) ↔
      0 < (if lang = "react" then reactRunCritCount envR
        else if lang = "laravel" then laravelRunCritCount envL else 0) := by
    intro lang
    rw [runScript_composed]
    by_cases h1 : lang = "react"
    · simpa [h1] using reactExit_iff envR
    · by_cases h2 : lang = "laravel"
      · simpa [h1, h2] using laravelExit_iff envL
      · simp [h1, h2]
  unfold dispatcherExit selectedCritTotal
  rw [dispatchFold_ne_zero, listSum_pos_iff]
  constructor
  · rintro (h0 | ⟨lang, hmem, hne⟩)
    · exact absurd rfl h0
    · exact ⟨_, List.mem_map_of_mem _ hmem, (key lang).mp hne⟩
  · rintro ⟨x, hx, hpos⟩
    rcases List.mem_map.mp hx with ⟨lang, hmem, rfl⟩
    exact Or.inr ⟨lang, hmem, (key lang).mpr hpos⟩

/-! ## C2: unknown stack names -/

/-- C2 counterexample: the reserved-but-unregistered name `"swift"` resolves
to nothing in the dispatcher's script map, yet the run completes with exit
status 0 (passing) — even if every script that could be spawned would exit
37 — so an unresolvable name is not surfaced as a configuration error. -/
theorem C2_counterexample :
    scriptMap "swift" = none ∧
    dispatcherExit (fun _ => 37) "swift" (some 1) = 0 := by
  constructor
  · rfl
  · rfl

/-- C2 amended: an explicitly requested name that does not resolve in the
registry (`scriptMap`) is silently skipped — `runScript` returns status 0 for
it without spawning anything — and a selection consisting solely of
unresolvable names yields a passing (zero) outcome, not a configuration
error. -/
theorem C2_unknown_names_silently_skipped (spawn : String → Nat) (input : String)
    (pr : Option Nat)
    (hauto : (parseLanguages input).contains "auto" = false)
    (hall : ∀ n ∈ parseLanguages input, scriptMap n = none)
    (hne : parseLanguages input ≠ []) :
    dispatcherExit spawn input pr = 0 ∧
    ∀ n, scriptMap n = none → runScript spawn n = 0 := by
  constructor
  · have htr : dispatcherToRun input pr = parseLanguages input := by
      unfold dispatcherToRun
      simp only [hauto, Bool.false_eq_true, if_false]
      rw [if_neg (by simpa [List.isEmpty_iff] using hne)]
    unfold dispatcherExit
    rw [htr]
    by_contra h
    rcases (dispatchFold_ne_zero _ _ _).mp h with h0 | ⟨lang, hmem, hne'⟩
    · exact h0 rfl
    · apply hne'
      unfold runScript
      rw [hall lang hmem]
  · intro n hn
    unfold runScript
    rw [hn]

/-- C2 witness: the amended theorem applied to the concrete selection
`"swift"` with scripts that would exit 5 if spawned. -/
theorem C2_witness :
    dispatcherExit (fun _ => 5) "swift" (some 1) = 0 ∧
    ∀ n, scriptMap n = none → runScript (fun _ => 5) n = 0 :=
  C2_unknown_names_silently_skipped (fun _ => 5) "swift" (some 1)
    (by decide) (by decide) (by decide)

/-! ## C3: auto-mode selection -/

/-- C3 counterexample: with a PR number present and a changed-file set
holding only `README.md` — accepted by no profile's matcher — auto mode
still selects both profiles, so the selection is not "exactly the profiles
whose matcher accepts a changed file", nor the single default profile. -/
theorem C3_counterexample :
    dispatcherToRun "auto" (some 1) = ["react", "laravel"] ∧
    reactFilterFiles exDocFiles = [] ∧
    laravelFilterFiles exDocFiles = [] ∧
    swiftFilterFiles exDocFiles = [] := by
  refine ⟨rfl, ?_, ?_, ?_⟩ <;> decide

/-- C3 amended: auto mode never inspects the changed files.  Whenever the
event carries a PR number it selects the fixed pair react + laravel; when it
does not (or the event cannot be read), detection yields the empty list and
exactly one default profile (react) is selected.  The comment dispatcher's
auto mode likewise runs the fixed pair. -/
theorem C3_auto_mode_fixed_pair (input : String) (pr : Option Nat)
    (h : (parseLanguages input).contains "auto" = true) :
    dispatcherToRun input pr =
      (match pr with
       | some _ => ["react", "laravel"]
       | none => ["react"]) ∧
    commentToRun input = ["react", "laravel"] := by
  constructor
  · unfold dispatcherToRun detectLanguagesFromPR
    simp only [h, if_true]
    cases pr <;> simp
  · unfold commentToRun
    simp only [h, if_true]

/-- C3 witness: the amended theorem at the concrete input `"auto"`, both
with and without a PR number. -/
theorem C3_witness :
    dispatcherToRun "auto" none = ["react"] ∧
    commentToRun "auto" = ["react", "laravel"] :=
  ⟨(C3_auto_mode_fixed_pair "auto" none (by decide)).1,
   (C3_auto_mode_fixed_pair "auto" none (by decide)).2⟩

/-! ## C4: exclusion invariant -/

/-- C4: for every content string, a file path matching a profile's exclusion
predicate makes that profile's `analyzeCode` return the empty result — no
critical findings and no suggestions — before any rule runs. -/
theorem C4_exclusion_invariant (content : List Char) (fp : String) :
    (laravelExcluded fp = true → laravelAnalyzeCode content fp = ⟨[], []⟩) ∧
    (reactExcluded fp = true → reactAnalyzeCode content fp = .ok ⟨[], []⟩) ∧
    (swiftExcluded fp = true → swiftAnalyzeCode content fp = ⟨[], []⟩) := by
  refine ⟨fun h => ?_, fun h => ?_, fun h => ?_⟩
  · unfold laravelAnalyzeCode
    rw [if_pos h]
  · unfold reactAnalyzeCode
    rw [if_pos h]
  · unfold swiftAnalyzeCode
    rw [if_pos h]

/-- C4 witness: contents that would otherwise yield a critical finding in
each stack produce nothing under an excluded path. -/
theorem C4_witness :
    laravelExcluded "vendor/a.php" = true ∧
    laravelAnalyzeCode "dd($x);".data "vendor/a.php" = ⟨[], []⟩ ∧
    reactExcluded "dist/a.js" = true ∧
    reactAnalyzeCode "eval(code)".data "dist/a.js" = .ok ⟨[], []⟩ ∧
    swiftExcluded "Pods/A.swift" = true ∧
    swiftAnalyzeCode "print(1)".data "Pods/A.swift" = ⟨[], []⟩ :=
  ⟨by decide, (C4_exclusion_invariant "dd($x);".data "vendor/a.php").1 (by decide),
   by decide, (C4_exclusion_invariant "eval(code)".data "dist/a.js").2.1 (by decide),
   by decide, (C4_exclusion_invariant "print(1)".data "Pods/A.swift").2.2 (by decide)⟩

/-! ## C10: removed files -/

/-- C10: a changed file whose status is "removed" never passes any
reviewer's `getPRDiff`/`getPRFiles` filter, and the review loop (hence the
pattern evaluator, the content fetch and the AI request) only sees files of
the filtered list. -/
theorem C10_removed_files_excluded (files : List PRFile) (f : PRFile) :
    (f ∈ laravelFilterFiles files → f.status ≠ "removed") ∧
    (f ∈ reactFilterFiles files → f.status ≠ "removed") ∧
    (f ∈ swiftFilterFiles files → f.status ≠ "removed") := by
  refine ⟨fun h => ?_, fun h => ?_, fun h => ?_⟩
  · have := (List.mem_filter.mp h).2
    simp only [Bool.and_eq_true, bne_iff_ne, ne_eq] at this
    exact this.1.1.2
  · have := (List.mem_filter.mp h).2
    simp only [Bool.and_eq_true, bne_iff_ne, ne_eq] at this
    exact this.1.1.1.2
  · have := (List.mem_filter.mp h).2
    simp only [Bool.and_eq_true, bne_iff_ne, ne_eq] at this
    exact this.1.1.1.1.2

/-- C10 witness: concrete member files of each filter have a non-"removed"
status. -/
theorem C10_witness :
    ((⟨"a.php", "modified", none, 0, 0⟩ : PRFile).status ≠ "removed") ∧
    ((⟨"b.jsx", "added", none, 0, 0⟩ : PRFile).status ≠ "removed") ∧
    ((⟨"C.swift", "modified", none, 0, 0⟩ : PRFile).status ≠ "removed") :=
  ⟨(C10_removed_files_excluded [⟨"a.php", "modified", none, 0, 0⟩] _).1 (by decide),
   (C10_removed_files_excluded [⟨"b.jsx", "added", none, 0, 0⟩] _).2.1 (by decide),
   (C10_removed_files_excluded [⟨"C.swift", "modified", none, 0, 0⟩] _).2.2 (by decide)⟩

/-! ## C5: fatal vs locally recovered collaborator errors -/

/-- C5 counterexample: when listing the changed files fails (the
`listFiles` call throws), every reviewer catches the error, treats the file
set as empty and returns exit 0 with no report — a passing outcome, not the
failing one the claim requires. -/
theorem C5_counterexample :
    exListErrEnv.listFiles = .error () ∧
    laravelRunResult exListErrEnv = (none, 0) ∧
    reactRunResult exListErrEnv = (none, 0) ∧
    swiftRunResult exListErrEnv = (none, 0) :=
  ⟨rfl, rfl, rfl, rfl⟩

/-- C5 amended: a failure to discover the changed-file set is caught and
degraded to an empty set — the run produces no report and a PASSING (zero)
outcome.  Per-file collaborator errors are recovered locally: the aggregate
is the concatenation of independent per-file contributions, and a file whose
content fetch fails (or whose React evaluation throws) contributes nothing
while the other files' contributions are unchanged. -/
theorem C5_collaborator_errors (env : ReviewEnv) (files : List PRFile) (f : PRFile) :
    (env.listFiles = .error () →
      laravelRunResult env = (none, 0) ∧ reactRunResult env = (none, 0) ∧
      swiftRunResult env = (none, 0)) ∧
    laravelRunAgg env files =
      ⟨(files.take 8).flatMap (lNewCrit env), (files.take 8).flatMap (lNewSugg env),
       (files.take 8).flatMap (lNewAI env)⟩ ∧
    reactRunAgg env files =
      ⟨(files.take 10).flatMap (rNewCrit env), (files.take 10).flatMap (rNewSugg env),
       (files.take 10).flatMap (rNewAI env)⟩ ∧
    (env.getContent f.filename = .error () →
      lNewCrit env f = [] ∧ lNewSugg env f = [] ∧ lNewAI env f = [] ∧
      rNewCrit env f = [] ∧ rNewSugg env f = [] ∧ rNewAI env f = []) := by
  refine ⟨?_, laravelRunAgg_eq env files, reactRunAgg_eq env files, ?_⟩
  · intro h
    unfold laravelRunResult reactRunResult swiftRunResult
    cases env.prNumber <;> simp [h]
  · intro h
    unfold lNewCrit lNewSugg lNewAI rNewCrit rNewSugg rNewAI
    rw [h]
    simp

/-- C5 witness: the amended theorem at the failing-listing environment and a
file whose content fetch fails. -/
theorem C5_witness :
    laravelRunResult exListErrEnv = (none, 0) ∧
    lNewCrit exListErrEnv ⟨"app/A.php", "modified", none, 0, 0⟩ = [] :=
  ⟨((C5_collaborator_errors exListErrEnv [] ⟨"app/A.php", "modified", none, 0, 0⟩).1 rfl).1,
   ((C5_collaborator_errors exListErrEnv [] ⟨"app/A.php", "modified", none, 0, 0⟩).2.2.2 rfl).1⟩

/-! ## C6: AI reply normalization -/

theorem laravelIncludeAI_some_getD {r : Option String}
    (h : laravelIncludeAI r = true) : laravelIncludeAI (some (r.getD "")) = true := by
  cases r with
  | none => simp [laravelIncludeAI] at h
  | some s => simpa using h

theorem reactIncludeAI_some_getD {r : Option String}
    (h : reactIncludeAI r = true) : reactIncludeAI (some (r.getD "")) = true := by
  cases r with
  | none => simp [reactIncludeAI] at h
  | some s => simpa using h

theorem swiftIncludeAI_some_getD {r : Option String}
    (h : swiftIncludeAI r = true) : swiftIncludeAI (some (r.getD "")) = true := by
  cases r with
  | none => simp [swiftIncludeAI] at h
  | some s => simpa using h

theorem lNewAI_mem {env : ReviewEnv} {f : PRFile} {e : String × String}
    (h : e ∈ lNewAI env f) : laravelIncludeAI (some e.2) = true := by
  unfold lNewAI at h
  cases hc : env.getContent f.filename with
  | error u => rw [hc] at h; simp at h
  | ok content =>
    rw [hc] at h
    dsimp only at h
    cases hp : f.patch with
    | none => rw [hp] at h; simp at h
    | some patch =>
      rw [hp] at h
      dsimp only at h
      split at h
      · split at h
        · rename_i hinc
          simp only [List.mem_singleton] at h
          subst h
          exact laravelIncludeAI_some_getD hinc
        · simp at h
      · simp at h

theorem rNewAI_mem {env : ReviewEnv} {f : PRFile} {e : String × String}
    (h : e ∈ rNewAI env f) : reactIncludeAI (some e.2) = true := by
  unfold rNewAI at h
  cases hc : env.getContent f.filename with
  | error u => rw [hc] at h; simp at h
  | ok content =>
    rw [hc] at h
    dsimp only at h
    cases hr : reactAnalyzeCode content.data f.filename with
    | error u => rw [hr] at h; simp at h
    | ok r =>
      rw [hr] at h
      dsimp only at h
      cases hp : f.patch with
      | none => rw [hp] at h; simp at h
      | some patch =>
        rw [hp] at h
        dsimp only at h
        split at h
        · split at h
          · rename_i hinc
            simp only [List.mem_singleton] at h
            subst h
            exact reactIncludeAI_some_getD hinc
          · simp at h
        · simp at h

theorem sNewAI_mem {env : ReviewEnv} {f : PRFile} {e : String × String}
    (h : e ∈ sNewAI env f) : swiftIncludeAI (some e.2) = true := by
  unfold sNewAI at h
  cases hc : env.getContent f.filename with
  | error u => rw [hc] at h; simp at h
  | ok content =>
    rw [hc] at h
    dsimp only at h
    cases hp : f.patch with
    | none => rw [hp] at h; simp at h
    | some patch =>
      rw [hp] at h
      dsimp only at h
      split at h
      · split at h
        · rename_i hinc
          simp only [List.mem_singleton] at h
          subst h
          exact swiftIncludeAI_some_getD hinc
        · simp at h
      · simp at h

/-- C6: the AI reply is included as a narrative iff it is non-empty and does
not match the stack's negative phrases (substring `"None"`/`"No issues"` for
Laravel and React, case-insensitive `None` for Swift); and every narrative
that reaches a run's aggregate passed this normalization. -/
theorem C6_ai_reply_normalization (r : Option String) (env : ReviewEnv)
    (files : List PRFile) :
    (laravelIncludeAI r = true ↔
      ∃ s, r = some s ∧ s ≠ "" ∧ laravelNegPhrase s = false) ∧
    (reactIncludeAI r = true ↔
      ∃ s, r = some s ∧ s ≠ "" ∧ laravelNegPhrase s = false) ∧
    (swiftIncludeAI r = true ↔
      ∃ s, r = some s ∧ s ≠ "" ∧ swiftNegPhrase s = false) ∧
    (∀ e ∈ (laravelRunAgg env files).aiReviews, laravelIncludeAI (some e.2) = true) ∧
    (∀ e ∈ (reactRunAgg env files).aiReviews, reactIncludeAI (some e.2) = true) ∧
    (∀ e ∈ (swiftRunAgg env files).aiReviews, swiftIncludeAI (some e.2) = true) := by
  refine ⟨?_, ?_, ?_, ?_, ?_, ?_⟩
  · cases r with
    | none => simp [laravelIncludeAI]
    | some s =>
      simp [laravelIncludeAI, laravelNegPhrase]
      tauto
  · cases r with
    | none => simp [reactIncludeAI]
    | some s =>
      simp [reactIncludeAI, laravelNegPhrase]
      tauto
  · cases r with
    | none => simp [swiftIncludeAI]
    | some s =>
      simp [swiftIncludeAI, swiftNegPhrase]
  · intro e he
    rw [laravelRunAgg_eq] at he
    rcases List.mem_flatMap.mp he with ⟨f, _, hf⟩
    exact lNewAI_mem hf
  · intro e he
    rw [reactRunAgg_eq] at he
    rcases List.mem_flatMap.mp he with ⟨f, _, hf⟩
    exact rNewAI_mem hf
  · intro e he
    rw [swiftRunAgg_ai] at he
    rcases List.mem_flatMap.mp he with ⟨f, _, hf⟩
    exact sNewAI_mem hf

/-- C6 witness: a run whose AI reply reports a definite bug includes the
reply as a narrative, and the reply passes the normalization predicate. -/
theorem C6_witness :
    ("app/A.php", "CRITICAL:\n- Line 2: definite bug") ∈
      (laravelRunAgg exAIEnv [exAIFile]).aiReviews ∧
    laravelIncludeAI (some "CRITICAL:\n- Line 2: definite bug") = true :=
  ⟨by decide,
   (C6_ai_reply_normalization (some "CRITICAL:\n- Line 2: definite bug") exAIEnv
     [exAIFile]).2.2.2.1 ("app/A.php", "CRITICAL:\n- Line 2: definite bug") (by decide)⟩

/-! ## C9: the evaluators never throw -/

theorem starMatch_inv {p : Char → Bool} {k : Option Char → List Char → Bool}
    {prev : Option Char} {cs : List Char} (h : starMatch p k prev cs = true) :
    ∃ l₁ l₂ pr, cs = l₁ ++ l₂ ∧ (∀ c ∈ l₁, p c = true) ∧ k pr l₂ = true := by
  induction cs generalizing prev with
  | nil => exact ⟨[], [], prev, rfl, by simp, by simpa [starMatch] using h⟩
  | cons c cs ih =>
    rw [starMatch] at h
    simp only [Bool.or_eq_true, Bool.and_eq_true] at h
    rcases h with h | ⟨hp, hs⟩
    · exact ⟨[], c :: cs, prev, rfl, by simp, h⟩
    · rcases ih hs with ⟨l₁, l₂, pr, heq, hall, hk⟩
      refine ⟨c :: l₁, l₂, pr, by simp [heq], ?_, hk⟩
      intro d hd
      rcases List.mem_cons.mp hd with rfl | hd
      · exact hp
      · exact hall d hd

theorem patMatch_lit_inv {l : List Char} {prev : Option Char} {cs : List Char}
    {k : Option Char → List Char → Bool} (h : patMatch (.lit l) prev cs k = true) :
    ∃ rest, cs = l ++ rest ∧ k (lastOr l prev) rest = true := by
  simp only [patMatch] at h
  cases hd : dropLit l cs with
  | none => rw [hd] at h; simp at h
  | some rest =>
    rw [hd] at h
    exact ⟨rest, dropLit_eq_append hd, h⟩

theorem patMatch_cls_inv {p : Char → Bool} {prev : Option Char} {cs : List Char}
    {k : Option Char → List Char → Bool} (h : patMatch (.cls p) prev cs k = true) :
    ∃ c rest, cs = c :: rest ∧ p c = true ∧ k (some c) rest = true := by
  simp only [patMatch] at h
  cases cs with
  | nil => simp at h
  | cons c rest =>
    simp only [Bool.and_eq_true] at h
    exact ⟨c, rest, rfl, h.1, h.2⟩

theorem word_not_space {c : Char} (h : isWordChar c = true) : isSpaceChar c = false := by
  by_contra hc
  rw [Bool.not_eq_false] at hc
  unfold isSpaceChar at hc
  simp only [Bool.or_eq_true, decide_eq_true_eq] at hc
  rcases hc with (((((h1 | h1) | h1) | h1) | h1) | h1) <;> subst h1 <;>
    exact absurd h (by decide)

theorem dropWhile_all {p : Char → Bool} {l : List Char} (h : ∀ c ∈ l, p c = true)
    (rest : List Char) : (l ++ rest).dropWhile p = rest.dropWhile p := by
  induction l with
  | nil => simp
  | cons c cs ih =>
    have hc := h c (by simp)
    have hcs : ∀ d ∈ cs, p d = true := fun d hd => h d (by simp [hd])
    simp [List.dropWhile_cons, hc, ih hcs]

theorem letCapture_cons_ne (a : Char) (ha : ¬(a = 'l')) (cs : List Char) :
    letCapture (a :: cs) = letCapture cs := by
  conv_lhs => rw [letCapture.eq_def]
  dsimp only
  rw [if_neg ha]

/-- Whenever the anchored guard of React rule 13 would accept a line, the
unanchored capture search finds a `let`-bound name: the clause structure the
guard guarantees. -/
theorem letCapture_shape (ws : List Char) (hws : ∀ c ∈ ws, isSpaceChar c = true)
    (d : Char) (hd : isSpaceChar d = true)
    (ws₂ : List Char) (hws₂ : ∀ c ∈ ws₂, isSpaceChar c = true)
    (w : Char) (hw : isWordChar w = true) (tail : List Char) :
    (letCapture (ws ++ 'l' :: 'e' :: 't' :: d :: (ws₂ ++ w :: tail))).isSome = true := by
  induction ws with
  | nil =>
    simp only [List.nil_append]
    rw [letCapture]
    simp only [if_pos rfl]
    have hdrop : ((d :: (ws₂ ++ w :: tail)).dropWhile isSpaceChar) = w :: tail := by
      rw [List.dropWhile_cons]
      simp only [hd, if_true]
      rw [dropWhile_all hws₂]
      rw [List.dropWhile_cons]
      simp [word_not_space hw]
    simp only [hd, if_true, hdrop]
    rw [List.takeWhile_cons]
    simp [hw]
  | cons a ws ih =>
    have ha : isSpaceChar a = true := hws a (by simp)
    have hal : ¬(a = 'l') := by
      intro h
      subst h
      exact absurd ha (by decide)
    have hws' : ∀ c ∈ ws, isSpaceChar c = true := fun c hc => hws c (by simp [hc])
    simp only [List.cons_append]
    rw [letCapture_cons_ne a hal]
    exact ih hws'

/-- The guard regex of React rule 13 accepting a line guarantees that
`line.match(/let\s+(\w+)/)` is non-null: the `[1]` dereference is safe. -/
theorem letGuard_capture {cs : List Char} (h : reTestA patLetGuard cs = true) :
    (letCapture cs).isSome = true := by
  unfold reTestA patLetGuard pseq pplus plit at h
  simp only [List.foldr_cons, List.foldr_nil, patMatch] at h
  obtain ⟨ws, cs₁, pr₁, rfl, hws, h1⟩ := starMatch_inv h
  cases hd1 : dropLit "let".data cs₁ with
  | none => rw [hd1] at h1; simp at h1
  | some cs₂ =>
    rw [hd1] at h1
    have hcs₁ := dropLit_eq_append hd1
    cases cs₂ with
    | nil => simp at h1
    | cons d cs₃ =>
      simp only [Bool.and_eq_true] at h1
      obtain ⟨hd, h2⟩ := h1
      obtain ⟨ws₂, cs₄, pr₂, rfl, hws₂, h3⟩ := starMatch_inv h2
      cases cs₄ with
      | nil => simp at h3
      | cons w cs₅ =>
        simp only [Bool.and_eq_true] at h3
        obtain ⟨hw, _⟩ := h3
        subst hcs₁
        have : ("let".data : List Char) = ['l', 'e', 't'] := rfl
        rw [this]
        simp only [List.cons_append, List.nil_append]
        exact letCapture_shape ws hws d hd ws₂ hws₂ w hw cs₅

theorem reactCheckLine_isOk (lines : List (List Char)) (idx : Nat) (line : List Char) :
    ∃ l, reactCheckLine lines idx line = .ok l := by
  unfold reactCheckLine
  by_cases hskip : rSkipLine (jsTrim line) = true
  · simp only [hskip]
    exact ⟨[], by simp⟩
  · simp only [Bool.not_eq_true] at hskip
    simp only [hskip, Bool.false_eq_true, if_false]
    by_cases hg : reTestA patLetGuard line = true
    · obtain ⟨name, hn⟩ := Option.isSome_iff_exists.mp (letGuard_capture hg)
      simp only [hg, if_true, hn]
      exact ⟨_, rfl⟩
    · simp only [Bool.not_eq_true] at hg
      simp only [hg, Bool.false_eq_true, if_false]
      exact ⟨_, rfl⟩

theorem foldl_checkLine_isOk (lines : List (List Char)) (l : List (Nat × List Char))
    (acc : List RSugg) :
    ∃ b, l.foldl (fun (acc : Except String (List RSugg)) (p : Nat × List Char) =>
      match acc with
      | Except.error e => Except.error e
      | Except.ok l =>
        match reactCheckLine lines p.1 p.2 with
        | Except.error e => Except.error e
        | Except.ok l' => Except.ok (l ++ l')) (Except.ok acc) = Except.ok b := by
  induction l generalizing acc with
  | nil => exact ⟨acc, rfl⟩
  | cons p ps ih =>
    simp only [List.foldl_cons]
    obtain ⟨w, hw⟩ := reactCheckLine_isOk lines p.1 p.2
    rw [hw]
    exact ih (acc ++ w)

/-- C9: the React pattern evaluator — the only one whose rules dereference a
regex capture (rule 13 of `checkBestPractices`) — terminates normally on
every content and file path: the modelled `TypeError` branch is unreachable
because the guard regex guarantees the capture exists.  (The Laravel and
Swift evaluators contain no capture dereference and are total functions of
the text by construction.) -/
theorem C9_evaluator_never_throws (content : List Char) (filename : String) :
    ∃ r, reactAnalyzeCode content filename = .ok r := by
  unfold reactAnalyzeCode
  split
  · exact ⟨⟨[], []⟩, rfl⟩
  · have hok : ∃ l, reactCheckBestPractices content filename = .ok l := by
      unfold reactCheckBestPractices
      exact foldl_checkLine_isOk (splitLines content) (splitLines content).enum []
    obtain ⟨l, hl⟩ := hok
    rw [hl]
    exact ⟨_, rfl⟩

/-! ## C7: rendering of the aggregate report -/

theorem critEntries_append (a b : List CEntry) :
    critEntries (a ++ b) = critEntries a ++ critEntries b := by
  simp [critEntries]

theorem suggEntries_append (a b : List CEntry) :
    suggEntries (a ++ b) = suggEntries a ++ suggEntries b := by
  simp [suggEntries]

theorem critEntries_cons_raw (s : String) (l : List CEntry) :
    critEntries (CEntry.raw s :: l) = critEntries l := rfl

theorem critEntries_cons_sugg (c f : String) (n : Nat) (m p : String) (l : List CEntry) :
    critEntries (CEntry.sugg c f n m p :: l) = critEntries l := rfl

theorem critEntries_cons_crit (f : String) (n : Nat) (t m : String) (l : List CEntry) :
    critEntries (CEntry.crit f n t m :: l) = (f, n, t, m) :: critEntries l := rfl

theorem suggEntries_cons_raw (s : String) (l : List CEntry) :
    suggEntries (CEntry.raw s :: l) = suggEntries l := rfl

theorem suggEntries_cons_crit (f : String) (n : Nat) (t m : String) (l : List CEntry) :
    suggEntries (CEntry.crit f n t m :: l) = suggEntries l := rfl

theorem suggEntries_cons_sugg (c f : String) (n : Nat) (m p : String) (l : List CEntry) :
    suggEntries (CEntry.sugg c f n m p :: l) = (c, f, n, m) :: suggEntries l := rfl

theorem critEntries_nil : critEntries [] = [] := rfl

theorem suggEntries_nil : suggEntries [] = [] := rfl

theorem critEntries_rawMap {α : Type} (l : List α) (g : α → String) :
    critEntries (l.map (fun x => CEntry.raw (g x))) = [] := by
  induction l with
  | nil => rfl
  | cons x xs ih => simp only [List.map_cons, critEntries_cons_raw, ih]

theorem suggEntries_rawMap {α : Type} (l : List α) (g : α → String) :
    suggEntries (l.map (fun x => CEntry.raw (g x))) = [] := by
  induction l with
  | nil => rfl
  | cons x xs ih => simp only [List.map_cons, suggEntries_cons_raw, ih]

theorem critEntries_critMap {α : Type} (l : List α) (f : String) (ln : α → Nat)
    (ty ms : α → String) :
    critEntries (l.map (fun i => CEntry.crit f (ln i) (ty i) (ms i))) =
      l.map (fun i => (f, ln i, ty i, ms i)) := by
  induction l with
  | nil => rfl
  | cons x xs ih => simp only [List.map_cons, critEntries_cons_crit, ih]

theorem suggEntries_critMap {α : Type} (l : List α) (f : String) (ln : α → Nat)
    (ty ms : α → String) :
    suggEntries (l.map (fun i => CEntry.crit f (ln i) (ty i) (ms i))) = [] := by
  induction l with
  | nil => rfl
  | cons x xs ih => simp only [List.map_cons, suggEntries_cons_crit, ih]

theorem suggEntries_suggMap {α : Type} (l : List α) (c f : α → String)
    (ln : α → Nat) (ms p : α → String) :
    suggEntries (l.map (fun i => CEntry.sugg (c i) (f i) (ln i) (ms i) (p i))) =
      l.map (fun i => (c i, f i, ln i, ms i)) := by
  induction l with
  | nil => rfl
  | cons x xs ih => simp only [List.map_cons, suggEntries_cons_sugg, ih]

theorem critEntries_sugMap {α : Type} (l : List α) (c f : α → String)
    (ln : α → Nat) (ms p : α → String) :
    critEntries (l.map (fun i => CEntry.sugg (c i) (f i) (ln i) (ms i) (p i))) = [] := by
  induction l with
  | nil => rfl
  | cons x xs ih => simp only [List.map_cons, critEntries_cons_sugg, ih]

theorem critEntries_lsec (l : List (String × List LIssue)) :
    critEntries (l.flatMap (fun fc =>
      [CEntry.raw ("#### 📄 " ++ fc.1 ++ "\n")] ++
      fc.2.map (fun i => CEntry.crit fc.1 i.line i.type i.message) ++
      [CEntry.raw "\n"])) =
    l.flatMap (fun fc => fc.2.map (fun i => (fc.1, i.line, i.type, i.message))) := by
  induction l with
  | nil => rfl
  | cons fc rest ih =>
    simp only [List.flatMap_cons, List.singleton_append, List.cons_append,
      List.nil_append, critEntries_append, critEntries_cons_raw, critEntries_nil,
      List.append_nil]
    rw [critEntries_critMap fc.2 fc.1 (fun i => i.line) (fun i => i.type)
      (fun i => i.message)]
    try simp only [List.nil_append, List.append_nil]
    try congr 1
    all_goals simpa only [List.flatMap_cons, List.singleton_append, List.cons_append,
      List.nil_append] using ih

theorem suggEntries_lsec (l : List (String × List LIssue)) :
    suggEntries (l.flatMap (fun fc =>
      [CEntry.raw ("#### 📄 " ++ fc.1 ++ "\n")] ++
      fc.2.map (fun i => CEntry.crit fc.1 i.line i.type i.message) ++
      [CEntry.raw "\n"])) = [] := by
  induction l with
  | nil => rfl
  | cons fc rest ih =>
    simp only [List.flatMap_cons, List.singleton_append, List.cons_append,
      List.nil_append, suggEntries_append, suggEntries_cons_raw, suggEntries_nil,
      List.append_nil]
    rw [suggEntries_critMap fc.2 fc.1 (fun i => i.line) (fun i => i.type)
      (fun i => i.message)]
    try simp only [List.nil_append, List.append_nil]
    all_goals simpa only [List.flatMap_cons, List.singleton_append, List.cons_append,
      List.nil_append] using ih

theorem critEntries_rsec (l : List (String × List RIssue)) :
    critEntries (l.flatMap (fun fc =>
      [CEntry.raw ("#### 📄 " ++ fc.1 ++ "\n")] ++
      fc.2.map (fun i => CEntry.crit fc.1 i.line i.type i.message) ++
      [CEntry.raw "\n"])) =
    l.flatMap (fun fc => fc.2.map (fun i => (fc.1, i.line, i.type, i.message))) := by
  induction l with
  | nil => rfl
  | cons fc rest ih =>
    simp only [List.flatMap_cons, List.singleton_append, List.cons_append,
      List.nil_append, critEntries_append, critEntries_cons_raw, critEntries_nil,
      List.append_nil]
    rw [critEntries_critMap fc.2 fc.1 (fun i => i.line) (fun i => i.type)
      (fun i => i.message)]
    try simp only [List.nil_append, List.append_nil]
    try congr 1
    all_goals simpa only [List.flatMap_cons, List.singleton_append, List.cons_append,
      List.nil_append] using ih

theorem suggEntries_rsec (l : List (String × List RIssue)) :
    suggEntries (l.flatMap (fun fc =>
      [CEntry.raw ("#### 📄 " ++ fc.1 ++ "\n")] ++
      fc.2.map (fun i => CEntry.crit fc.1 i.line i.type i.message) ++
      [CEntry.raw "\n"])) = [] := by
  induction l with
  | nil => rfl
  | cons fc rest ih =>
    simp only [List.flatMap_cons, List.singleton_append, List.cons_append,
      List.nil_append, suggEntries_append, suggEntries_cons_raw, suggEntries_nil,
      List.append_nil]
    rw [suggEntries_critMap fc.2 fc.1 (fun i => i.line) (fun i => i.type)
      (fun i => i.message)]
    try simp only [List.nil_append, List.append_nil]
    all_goals simpa only [List.flatMap_cons, List.singleton_append, List.cons_append,
      List.nil_append] using ih

theorem critEntries_ssec (l : List (String × List SIssue)) :
    critEntries (l.flatMap (fun fc =>
      [CEntry.raw ("#### 📄 " ++ fc.1 ++ "\n")] ++
      fc.2.map (fun i => CEntry.crit fc.1 i.line i.type i.message) ++
      [CEntry.raw "\n"])) =
    l.flatMap (fun fc => fc.2.map (fun i => (fc.1, i.line, i.type, i.message))) := by
  induction l with
  | nil => rfl
  | cons fc rest ih =>
    simp only [List.flatMap_cons, List.singleton_append, List.cons_append,
      List.nil_append, critEntries_append, critEntries_cons_raw, critEntries_nil,
      List.append_nil]
    rw [critEntries_critMap fc.2 fc.1 (fun i => i.line) (fun i => i.type)
      (fun i => i.message)]
    try simp only [List.nil_append, List.append_nil]
    try congr 1
    all_goals simpa only [List.flatMap_cons, List.singleton_append, List.cons_append,
      List.nil_append] using ih

theorem suggEntries_ssec (l : List (String × List SIssue)) :
    suggEntries (l.flatMap (fun fc =>
      [CEntry.raw ("#### 📄 " ++ fc.1 ++ "\n")] ++
      fc.2.map (fun i => CEntry.crit fc.1 i.line i.type i.message) ++
      [CEntry.raw "\n"])) = [] := by
  induction l with
  | nil => rfl
  | cons fc rest ih =>
    simp only [List.flatMap_cons, List.singleton_append, List.cons_append,
      List.nil_append, suggEntries_append, suggEntries_cons_raw, suggEntries_nil,
      List.append_nil]
    rw [suggEntries_critMap fc.2 fc.1 (fun i => i.line) (fun i => i.type)
      (fun i => i.message)]
    try simp only [List.nil_append, List.append_nil]
    all_goals simpa only [List.flatMap_cons, List.singleton_append, List.cons_append,
      List.nil_append] using ih

theorem suggEntries_swiftSugg (l : List (String × List SSugg)) :
    suggEntries (l.flatMap (fun fs =>
      fs.2.map (fun s => CEntry.sugg s.category fs.1 s.line s.message ""))) =
    l.flatMap (fun fs => fs.2.map (fun s => (s.category, fs.1, s.line, s.message))) := by
  induction l with
  | nil => rfl
  | cons fs rest ih =>
    simp only [List.flatMap_cons, suggEntries_append, ih]
    congr 1
    exact suggEntries_suggMap fs.2 (fun s => s.category) (fun _ => fs.1)
      (fun s => s.line) (fun s => s.message) (fun _ => "")

theorem critEntries_swiftSugg (l : List (String × List SSugg)) :
    critEntries (l.flatMap (fun fs =>
      fs.2.map (fun s => CEntry.sugg s.category fs.1 s.line s.message ""))) = [] := by
  induction l with
  | nil => rfl
  | cons fs rest ih =>
    simp only [List.flatMap_cons, critEntries_append, ih]
    rw [List.append_nil]
    exact critEntries_sugMap fs.2 (fun s => s.category) (fun _ => fs.1)
      (fun s => s.line) (fun s => s.message) (fun _ => "")

theorem critEntries_ite (c : Prop) [Decidable c] (a b : List CEntry) :
    critEntries (if c then a else b) = if c then critEntries a else critEntries b :=
  apply_ite critEntries c a b

theorem suggEntries_ite (c : Prop) [Decidable c] (a b : List CEntry) :
    suggEntries (if c then a else b) = if c then suggEntries a else suggEntries b :=
  apply_ite suggEntries c a b

theorem catTagged_nil : catTagged [] = [] := rfl

theorem catTagged_cons (c : String) (its : List RItem)
    (rest : List (String × List RItem)) :
    catTagged ((c, its) :: rest) =
      its.map (fun i => (c, i.file, i.line, i.message)) ++ catTagged rest := rfl

/-- The suggestions section of the React comment, computed entry by entry. -/
theorem suggEntries_catBlocks (m : List (String × List RItem)) :
    suggEntries (m.flatMap (fun cb =>
      [CEntry.raw ("#### " ++ cb.1 ++ "\n\n")] ++
      (cb.2.filter (fun i => i.priority = RPriority.high)).map
        (fun i => CEntry.sugg cb.1 i.file i.line i.message (prioTag i.priority)) ++
      (cb.2.filter (fun i => i.priority = RPriority.medium)).map
        (fun i => CEntry.sugg cb.1 i.file i.line i.message (prioTag i.priority)) ++
      (cb.2.filter (fun i => i.priority = RPriority.low)).map
        (fun i => CEntry.sugg cb.1 i.file i.line i.message (prioTag i.priority)) ++
      [CEntry.raw "\n"])) =
    m.flatMap (fun cb =>
      ((cb.2.filter (fun i => i.priority = RPriority.high)) ++
       (cb.2.filter (fun i => i.priority = RPriority.medium)) ++
       (cb.2.filter (fun i => i.priority = RPriority.low))).map
        (fun i => (cb.1, i.file, i.line, i.message))) := by
  induction m with
  | nil => rfl
  | cons cb rest ih =>
    simp only [List.singleton_append, List.cons_append, List.nil_append] at ih
    simp only [List.flatMap_cons, List.singleton_append, List.cons_append,
      List.nil_append, suggEntries_append, suggEntries_cons_raw, suggEntries_nil,
      List.append_nil, List.map_append]
    rw [suggEntries_suggMap (cb.2.filter (fun i => i.priority = RPriority.high))
        (fun _ => cb.1) (fun i => i.file) (fun i => i.line) (fun i => i.message)
        (fun i => prioTag i.priority),
      suggEntries_suggMap (cb.2.filter (fun i => i.priority = RPriority.medium))
        (fun _ => cb.1) (fun i => i.file) (fun i => i.line) (fun i => i.message)
        (fun i => prioTag i.priority),
      suggEntries_suggMap (cb.2.filter (fun i => i.priority = RPriority.low))
        (fun _ => cb.1) (fun i => i.file) (fun i => i.line) (fun i => i.message)
        (fun i => prioTag i.priority), ih]
    simp only [List.append_assoc, List.map_append]

theorem critEntries_catBlocks (m : List (String × List RItem)) :
    critEntries (m.flatMap (fun cb =>
      [CEntry.raw ("#### " ++ cb.1 ++ "\n\n")] ++
      (cb.2.filter (fun i => i.priority = RPriority.high)).map
        (fun i => CEntry.sugg cb.1 i.file i.line i.message (prioTag i.priority)) ++
      (cb.2.filter (fun i => i.priority = RPriority.medium)).map
        (fun i => CEntry.sugg cb.1 i.file i.line i.message (prioTag i.priority)) ++
      (cb.2.filter (fun i => i.priority = RPriority.low)).map
        (fun i => CEntry.sugg cb.1 i.file i.line i.message (prioTag i.priority)) ++
      [CEntry.raw "\n"])) = [] := by
  induction m with
  | nil => rfl
  | cons cb rest ih =>
    simp only [List.singleton_append, List.cons_append, List.nil_append] at ih
    simp only [List.flatMap_cons, List.singleton_append, List.cons_append,
      List.nil_append, critEntries_append, critEntries_cons_raw, critEntries_nil,
      List.append_nil]
    rw [critEntries_sugMap (cb.2.filter (fun i => i.priority = RPriority.high))
        (fun _ => cb.1) (fun i => i.file) (fun i => i.line) (fun i => i.message)
        (fun i => prioTag i.priority),
      critEntries_sugMap (cb.2.filter (fun i => i.priority = RPriority.medium))
        (fun _ => cb.1) (fun i => i.file) (fun i => i.line) (fun i => i.message)
        (fun i => prioTag i.priority),
      critEntries_sugMap (cb.2.filter (fun i => i.priority = RPriority.low))
        (fun _ => cb.1) (fun i => i.file) (fun i => i.line) (fun i => i.message)
        (fun i => prioTag i.priority), ih]
    simp only [List.nil_append, List.append_nil]

theorem suggEntries_reactSection (s : List (String × List RSugg)) :
    suggEntries (reactSuggSection s) =
      (sortedCats s).flatMap (fun cb =>
        ((cb.2.filter (fun i => i.priority = RPriority.high)) ++
         (cb.2.filter (fun i => i.priority = RPriority.medium)) ++
         (cb.2.filter (fun i => i.priority = RPriority.low))).map
          (fun i => (cb.1, i.file, i.line, i.message))) := by
  unfold reactSuggSection
  split_ifs with h
  · simp only [List.cons_append, List.nil_append, List.singleton_append,
      suggEntries_append, suggEntries_cons_raw, suggEntries_nil, List.append_nil]
    exact suggEntries_catBlocks (sortedCats s)
  · have hs : s = [] := List.length_eq_zero.mp (Nat.eq_zero_of_not_pos h)
    subst hs
    rfl

theorem critEntries_reactSection (s : List (String × List RSugg)) :
    critEntries (reactSuggSection s) = [] := by
  unfold reactSuggSection
  split_ifs with h
  · simp only [List.cons_append, List.nil_append, List.singleton_append,
      critEntries_append, critEntries_cons_raw, critEntries_nil, List.append_nil]
    exact critEntries_catBlocks (sortedCats s)
  · rfl

/-! Permutation toolkit for the React suggestions rendering. -/

theorem insertLE_perm {α : Type} (le : α → α → Bool) (x : α) (l : List α) :
    (insertLE le x l).Perm (x :: l) := by
  induction l with
  | nil => exact List.Perm.refl _
  | cons y ys ih =>
    rw [insertLE]
    split_ifs with h
    · exact (ih.cons y).trans (List.Perm.swap x y ys)
    · exact List.Perm.refl _

theorem sortLE_perm {α : Type} (le : α → α → Bool) (l : List α) :
    (sortLE le l).Perm l := by
  induction l with
  | nil => exact List.Perm.refl _
  | cons x xs ih =>
    unfold sortLE
    simp only [List.foldr_cons]
    exact (insertLE_perm le x _).trans (ih.cons x)

theorem flatMap_perm_right {α β : Type} (l : List α) (f g : α → List β)
    (h : ∀ x ∈ l, (f x).Perm (g x)) : (l.flatMap f).Perm (l.flatMap g) := by
  induction l with
  | nil => exact List.Perm.refl _
  | cons x xs ih =>
    simp only [List.flatMap_cons]
    exact (h x (by simp)).append (ih (fun y hy => h y (by simp [hy])))

theorem perm_append_swap {α : Type} (A B C : List α) :
    (A ++ (B ++ C)).Perm (B ++ (A ++ C)) := by
  have h := List.Perm.append_right C
    ((List.perm_append_comm : (A ++ B).Perm (B ++ A)))
  simpa [List.append_assoc] using h

theorem flatMap_perm_left {α β : Type} {l l' : List α} (h : l.Perm l')
    (f : α → List β) : (l.flatMap f).Perm (l'.flatMap f) := by
  induction h with
  | nil => exact List.Perm.refl _
  | cons x _ ih =>
    simp only [List.flatMap_cons]
    exact List.Perm.append_left (f x) ih
  | swap x y l =>
    simp only [List.flatMap_cons]
    have h1 := List.Perm.append_right (l.flatMap f)
      ((List.perm_append_comm : (f y ++ f x).Perm (f x ++ f y)))
    simpa [List.append_assoc] using h1
  | trans _ _ ih1 ih2 => exact ih1.trans ih2

theorem filter_prio_partition (items : List RItem) :
    ((items.filter (fun i => i.priority = RPriority.high)) ++
     (items.filter (fun i => i.priority = RPriority.medium)) ++
     (items.filter (fun i => i.priority = RPriority.low))).Perm items := by
  induction items with
  | nil => exact List.Perm.refl _
  | cons x xs ih =>
    cases hp : x.priority with
    | high =>
      simp only [List.filter_cons, hp, decide_True, decide_False, reduceCtorEq,
        if_true, if_false, List.cons_append]
      exact ih.cons x
    | medium =>
      simp only [List.filter_cons, hp, decide_True, decide_False, reduceCtorEq,
        if_true, if_false, List.append_assoc, List.cons_append]
      have ih' : (xs.filter (fun i => i.priority = RPriority.high) ++
          (xs.filter (fun i => i.priority = RPriority.medium) ++
           xs.filter (fun i => i.priority = RPriority.low))).Perm xs := by
        simpa [List.append_assoc] using ih
      exact List.perm_middle.trans (ih'.cons x)
    | low =>
      simp only [List.filter_cons, hp, decide_True, decide_False, reduceCtorEq,
        if_true, if_false, List.cons_append]
      exact List.perm_middle.trans (ih.cons x)

theorem catTagged_addToCat (m : List (String × List RItem)) (cat : String)
    (it : RItem) :
    (catTagged (addToCat m cat it)).Perm
      ((cat, it.file, it.line, it.message) :: catTagged m) := by
  induction m with
  | nil =>
    simp only [addToCat, catTagged_cons, catTagged_nil, List.map_cons, List.map_nil,
      List.append_nil]
    exact List.Perm.refl _
  | cons cb rest ih =>
    obtain ⟨c, its⟩ := cb
    by_cases hc : c = cat
    · subst hc
      simp only [addToCat, eq_self_iff_true, if_true, catTagged_cons,
        List.map_append, List.map_cons, List.map_nil, List.append_assoc,
        List.singleton_append]
      exact List.perm_middle
    · simp only [addToCat, if_neg hc, catTagged_cons]
      exact (List.Perm.append_left _ ih).trans List.perm_middle

theorem catTagged_innerFold (file : String) (ss : List RSugg)
    (acc : List (String × List RItem)) :
    (catTagged (ss.foldl (fun m s =>
      addToCat m s.category ⟨file, s.line, s.message, s.priority⟩) acc)).Perm
      ((ss.map (fun s => (s.category, file, s.line, s.message))) ++ catTagged acc) := by
  induction ss generalizing acc with
  | nil =>
    simp only [List.foldl_nil, List.map_nil, List.nil_append]
    exact List.Perm.refl _
  | cons s ss ih =>
    simp only [List.foldl_cons, List.map_cons, List.cons_append]
    refine (ih _).trans ?_
    refine (List.Perm.append_left _ (catTagged_addToCat acc s.category
      ⟨file, s.line, s.message, s.priority⟩)).trans ?_
    exact List.perm_middle

theorem catTagged_categorize (s : List (String × List RSugg))
    (acc : List (String × List RItem)) :
    (catTagged (s.foldl (fun m fs => fs.2.foldl (fun m sg =>
      addToCat m sg.category ⟨fs.1, sg.line, sg.message, sg.priority⟩) m) acc)).Perm
      ((s.flatMap (fun fs =>
        fs.2.map (fun sg => (sg.category, fs.1, sg.line, sg.message)))) ++
        catTagged acc) := by
  induction s generalizing acc with
  | nil =>
    simp only [List.foldl_nil, List.flatMap_nil, List.nil_append]
    exact List.Perm.refl _
  | cons fs rest ih =>
    simp only [List.foldl_cons, List.flatMap_cons, List.append_assoc]
    refine (ih _).trans ?_
    refine (List.Perm.append_left _ (catTagged_innerFold fs.1 fs.2 acc)).trans ?_
    exact perm_append_swap _ _ _

theorem critEntries_lsecN (l : List (String × List LIssue)) :
    critEntries (l.flatMap (fun fc =>
      CEntry.raw ("#### 📄 " ++ fc.1 ++ "\n") ::
      (fc.2.map (fun i => CEntry.crit fc.1 i.line i.type i.message) ++
       [CEntry.raw "\n"]))) =
    l.flatMap (fun fc => fc.2.map (fun i => (fc.1, i.line, i.type, i.message))) := by
  simpa only [List.singleton_append, List.cons_append] using critEntries_lsec l

theorem suggEntries_lsecN (l : List (String × List LIssue)) :
    suggEntries (l.flatMap (fun fc =>
      CEntry.raw ("#### 📄 " ++ fc.1 ++ "\n") ::
      (fc.2.map (fun i => CEntry.crit fc.1 i.line i.type i.message) ++
       [CEntry.raw "\n"]))) = [] := by
  simpa only [List.singleton_append, List.cons_append] using suggEntries_lsec l

theorem critEntries_rsecN (l : List (String × List RIssue)) :
    critEntries (l.flatMap (fun fc =>
      CEntry.raw ("#### 📄 " ++ fc.1 ++ "\n") ::
      (fc.2.map (fun i => CEntry.crit fc.1 i.line i.type i.message) ++
       [CEntry.raw "\n"]))) =
    l.flatMap (fun fc => fc.2.map (fun i => (fc.1, i.line, i.type, i.message))) := by
  simpa only [List.singleton_append, List.cons_append] using critEntries_rsec l

theorem suggEntries_rsecN (l : List (String × List RIssue)) :
    suggEntries (l.flatMap (fun fc =>
      CEntry.raw ("#### 📄 " ++ fc.1 ++ "\n") ::
      (fc.2.map (fun i => CEntry.crit fc.1 i.line i.type i.message) ++
       [CEntry.raw "\n"]))) = [] := by
  simpa only [List.singleton_append, List.cons_append] using suggEntries_rsec l

theorem critEntries_ssecN (l : List (String × List SIssue)) :
    critEntries (l.flatMap (fun fc =>
      CEntry.raw ("#### 📄 " ++ fc.1 ++ "\n") ::
      (fc.2.map (fun i => CEntry.crit fc.1 i.line i.type i.message) ++
       [CEntry.raw "\n"]))) =
    l.flatMap (fun fc => fc.2.map (fun i => (fc.1, i.line, i.type, i.message))) := by
  simpa only [List.singleton_append, List.cons_append] using critEntries_ssec l

theorem suggEntries_ssecN (l : List (String × List SIssue)) :
    suggEntries (l.flatMap (fun fc =>
      CEntry.raw ("#### 📄 " ++ fc.1 ++ "\n") ::
      (fc.2.map (fun i => CEntry.crit fc.1 i.line i.type i.message) ++
       [CEntry.raw "\n"]))) = [] := by
  simpa only [List.singleton_append, List.cons_append] using suggEntries_ssec l

/-- The rendered React suggestions are, up to ordering, exactly the
aggregate's suggestions tagged with their category. -/
theorem react_sugg_perm (agg : RAgg) :
    (suggEntries (reactCommentEntries agg)).Perm (rSuggItems agg) := by
  have h1 : suggEntries (reactCommentEntries agg) =
      suggEntries (reactSuggSection agg.allSuggestions) := by
    unfold reactCommentEntries
    simp only [List.cons_append, List.nil_append, List.singleton_append,
      suggEntries_append, suggEntries_ite, suggEntries_cons_raw, suggEntries_nil,
      suggEntries_rsecN, suggEntries_rawMap, List.append_nil, List.nil_append,
      ite_self]
  rw [h1, suggEntries_reactSection]
  refine (flatMap_perm_right (sortedCats agg.allSuggestions) _
    (fun cb => cb.2.map (fun i => (cb.1, i.file, i.line, i.message)))
    (fun cb _ => List.Perm.map _ (filter_prio_partition cb.2))).trans ?_
  have h2 : (sortedCats agg.allSuggestions).Perm
      (categorizeSugg agg.allSuggestions) := by
    unfold sortedCats
    exact sortLE_perm _ _
  refine (flatMap_perm_left h2
    (fun cb => cb.2.map (fun i => (cb.1, i.file, i.line, i.message)))).trans ?_
  have h3 := catTagged_categorize agg.allSuggestions []
  simpa only [catTagged, List.flatMap_nil, List.append_nil, categorizeSugg,
    rSuggItems] using h3

/-- The Laravel rendered report, computed: critical entries are exactly
`lCritItems`; no suggestion entry is ever rendered. -/
theorem laravel_render (agg : LAgg) :
    critEntries (laravelCommentEntries agg) = lCritItems agg ∧
    suggEntries (laravelCommentEntries agg) = [] := by
  constructor
  · unfold laravelCommentEntries lCritItems
    simp only [List.cons_append, List.nil_append, List.singleton_append,
      critEntries_append, critEntries_ite, critEntries_cons_raw, critEntries_nil,
      critEntries_rawMap, critEntries_lsecN, List.append_nil, ite_self]
    by_cases h : agg.allCritical.length > 0
    · simp [h]
    · have h0 : agg.allCritical = [] := List.length_eq_zero.mp (Nat.eq_zero_of_not_pos h)
      simp [h, h0]
  · unfold laravelCommentEntries
    simp only [List.cons_append, List.nil_append, List.singleton_append,
      suggEntries_append, suggEntries_ite, suggEntries_cons_raw, suggEntries_nil,
      suggEntries_rawMap, suggEntries_lsecN, List.append_nil, ite_self]

/-- The React rendered report, computed: critical entries are exactly
`rCritItems`. -/
theorem react_crit_render (agg : RAgg) :
    critEntries (reactCommentEntries agg) = rCritItems agg := by
  unfold reactCommentEntries rCritItems
  simp only [List.cons_append, List.nil_append, List.singleton_append,
    critEntries_append, critEntries_ite, critEntries_cons_raw, critEntries_nil,
    critEntries_rawMap, critEntries_rsecN, critEntries_reactSection,
    List.append_nil, ite_self]
  by_cases h : agg.allCritical.length > 0
  · simp [h]
  · have h0 : agg.allCritical = [] := List.length_eq_zero.mp (Nat.eq_zero_of_not_pos h)
    simp [h, h0]

/-- The Swift rendered report, computed: critical entries are exactly
`sCritItems` and suggestion entries exactly `sSuggItems`. -/
theorem swift_render (agg : SAgg) :
    critEntries (swiftCommentEntries agg) = sCritItems agg ∧
    suggEntries (swiftCommentEntries agg) = sSuggItems agg := by
  constructor
  · unfold swiftCommentEntries sCritItems
    simp only [List.cons_append, List.nil_append, List.singleton_append,
      critEntries_append, critEntries_ite, critEntries_cons_raw, critEntries_nil,
      critEntries_rawMap, critEntries_ssecN, critEntries_swiftSugg,
      List.append_nil, ite_self]
    by_cases h : agg.allCritical.length > 0
    · simp [h]
    · have h0 : agg.allCritical = [] := List.length_eq_zero.mp (Nat.eq_zero_of_not_pos h)
      simp [h, h0]
  · unfold swiftCommentEntries sSuggItems
    simp only [List.cons_append, List.nil_append, List.singleton_append,
      suggEntries_append, suggEntries_ite, suggEntries_cons_raw, suggEntries_nil,
      suggEntries_rawMap, suggEntries_ssecN, suggEntries_swiftSugg,
      List.append_nil, ite_self]
    by_cases h : agg.allSuggestions.length > 0
    · simp [h]
    · have h0 : agg.allSuggestions = [] :=
        List.length_eq_zero.mp (Nat.eq_zero_of_not_pos h)
      simp [h, h0]

/-- C7 (amended): in every rendered report, each critical finding appears
exactly once under its file (the entry stream's critical entries are exactly
the aggregate's per-file critical items, in order); each React suggestion
appears exactly once under its category (the suggestion entries are a
permutation of the aggregate's category-tagged suggestions — ordering moves
them into sorted category buckets); each Swift suggestion appears exactly
once under its file; and the Laravel report renders NO suggestion entries at
all, so the original claim fails for Laravel suggestions. -/
theorem C7_report_rendering (aggL : LAgg) (aggR : RAgg) (aggS : SAgg) :
    critEntries (laravelCommentEntries aggL) = lCritItems aggL ∧
    suggEntries (laravelCommentEntries aggL) = [] ∧
    critEntries (reactCommentEntries aggR) = rCritItems aggR ∧
    (suggEntries (reactCommentEntries aggR)).Perm (rSuggItems aggR) ∧
    critEntries (swiftCommentEntries aggS) = sCritItems aggS ∧
    suggEntries (swiftCommentEntries aggS) = sSuggItems aggS :=
  ⟨(laravel_render aggL).1, (laravel_render aggL).2, react_crit_render aggR,
    react_sugg_perm aggR, (swift_render aggS).1, (swift_render aggS).2⟩

/-- C7 counterexample: a Laravel aggregate holding one suggestion renders a
comment with no suggestion entry, and the suggestion's message text does not
occur anywhere in the comment string — the finding does not appear in the
rendered report at all, let alone exactly once. -/
theorem C7_counterexample :
    exSuggAgg.allSuggestions ≠ [] ∧
    suggEntries (laravelCommentEntries exSuggAgg) = [] ∧
    jsIncludes (laravelComment exSuggAgg)
      "Consider using Form Request classes for complex validations to keep controllers thin"
      = false :=
  ⟨by decide, (laravel_render exSuggAgg).2, by decide⟩

theorem reactAskAI_no_answer (k : Option String) (t : AIOutcome)
    (h : k = none ∨ t = .httpNotOk ∨ t = .netError ∨ t = .got none ∨
      t = .got (some "")) : reactAskAI k t ∈ reactFallbackMsgs := by
  rcases h with h | h | h | h | h
  · subst h; simp [reactAskAI, reactFallbackMsgs]
  all_goals subst h; cases k <;> simp [reactAskAI, reactFallbackMsgs]

theorem laravelAskAI_no_answer (k : Option String) (t : AIOutcome)
    (h : k = none ∨ t = .httpNotOk ∨ t = .netError ∨ t = .got none ∨
      t = .got (some "")) : laravelAskAI k t ∈ laravelFallbackMsgs := by
  rcases h with h | h | h | h | h
  · subst h; simp [laravelAskAI, laravelFallbackMsgs]
  all_goals subst h; cases k <;> simp [laravelAskAI, laravelFallbackMsgs]

/-- C8 (amended): each comment handler posts exactly one reply per
invocation; when the comment carries a question but no AI answer can be
obtained (missing credential, transport failure, missing or empty
completion), that single reply contains one of the graceful fallback
messages.  (The dispatcher's auto mode runs both handlers, so one triggering
comment then receives two replies — see the counterexample.) -/
theorem C8_single_reply_and_fallback (envR envL : CHEnv) :
    (reactHandleComment envR).length = 1 ∧
    (laravelHandleComment envL).length = 1 ∧
    (extractQuestion envR.commentBody ≠ "" →
      (envR.groqKey = none ∨ envR.ai = .httpNotOk ∨ envR.ai = .netError ∨
        envR.ai = .got none ∨ envR.ai = .got (some "")) →
      ∃ m ∈ reactFallbackMsgs,
        ∀ r ∈ reactHandleComment envR, jsIncludes r m = true) ∧
    (extractQuestion envL.commentBody ≠ "" →
      (envL.groqKey = none ∨ envL.ai = .httpNotOk ∨ envL.ai = .netError ∨
        envL.ai = .got none ∨ envL.ai = .got (some "")) →
      ∃ m ∈ laravelFallbackMsgs,
        ∀ r ∈ laravelHandleComment envL, jsIncludes r m = true) := by
  refine ⟨?_, ?_, ?_, ?_⟩
  · by_cases h : extractQuestion envR.commentBody = "" <;>
      simp [reactHandleComment, h]
  · by_cases h : extractQuestion envL.commentBody = "" <;>
      simp [laravelHandleComment, h]
  · intro hq hc
    refine ⟨reactAskAI envR.groqKey envR.ai, reactAskAI_no_answer _ _ hc, ?_⟩
    intro r hr
    simp only [reactHandleComment, if_neg hq, List.mem_singleton] at hr
    subst hr
    exact jsIncludes_sandwich _ _ _
  · intro hq hc
    refine ⟨laravelAskAI envL.groqKey envL.ai, laravelAskAI_no_answer _ _ hc, ?_⟩
    intro r hr
    simp only [laravelHandleComment, if_neg hq, List.mem_singleton] at hr
    subst hr
    exact jsIncludes_sandwich _ _ _

/-- C8 witness: a concrete triggering comment with a question and no
credential — each handler posts exactly one reply and it carries a fallback
message. -/
theorem C8_witness :
    (reactHandleComment exCHEnvQ).length = 1 ∧
    (laravelHandleComment exCHEnvQ).length = 1 ∧
    (∃ m ∈ reactFallbackMsgs,
      ∀ r ∈ reactHandleComment exCHEnvQ, jsIncludes r m = true) ∧
    (∃ m ∈ laravelFallbackMsgs,
      ∀ r ∈ laravelHandleComment exCHEnvQ, jsIncludes r m = true) := by
  obtain ⟨h1, h2, h3, h4⟩ := C8_single_reply_and_fallback exCHEnvQ exCHEnvQ
  exact ⟨h1, h2, h3 (by decide) (by decide), h4 (by decide) (by decide)⟩

/-- C8 counterexample: a single triggering comment handled by the comment
dispatcher in auto mode receives TWO reply comments (one per spawned
handler), not exactly one. -/
theorem C8_counterexample :
    (commentDispatcherPosted "auto" exCHEnv exCHEnv).length = 2 ∧
    (commentDispatcherPosted "auto" exCHEnv exCHEnv).length ≠ 1 := by
  constructor <;> decide

end AIPR
